import Mathlib

/-! # Framed byte protocol: packet codec, sender and receiver

A shallow embedding of `protocol.c` / `transmitter.c` (the two files hold the
same four functions) and of `protocol.h` / `transmitter.h`.

Bytes (`uint8_t`) are natural numbers below 256, `int` values are integers,
the 32-bit microsecond counter is a natural number taken modulo `2 ^ 32`.
The platform calls (`putchar_raw`, `getchar_timeout_us`, `time_us_32`) are
scripted: the environment fixes what each call returns and how long it takes.
-/

namespace Protocol

/-! ## Constants and types of the header file -/

/-- Maximum payload size (`#define MAX_PACKET_SIZE 255`). -/
def MAX_PACKET_SIZE : Nat := 255

/-- Packet header byte (`#define HEADER_BYTE 0xAA`). -/
def HEADER_BYTE : Nat := 0xAA

/-- The `Packet` struct. `data` holds the bytes written to the array so far,
index 0 first; an index that was never written reads as 0. -/
structure Packet where
  header : Nat
  length : Nat
  data : List Nat
  checksum : Nat
deriving DecidableEq

/-- Error codes of the platform SDK (`pico/error.h`), which is not part of the
repository: they are parameters of the model. -/
structure Sdk where
  PICO_ERROR_TIMEOUT : Int
  PICO_ERROR_GENERIC : Int
deriving DecidableEq

/-- Conversion of an `int` to `uint8_t`: reduction modulo 256. -/
def toU8 (x : Int) : Nat := (x % 256).toNat

/-- Copy of `n` bytes from `src` to the start of `dst` (`memcpy(dst, src, n)`). -/
def memcpy (dst src : List Nat) (n : Nat) : List Nat :=
  src.take n ++ dst.drop n

/-! ## Checksum -/

/-- The loop of `calculate_checksum`: `for (i = ...; i < length; i++) checksum ^= data[i]`,
with `remaining = length - i` iterations left. -/
def checksum_loop (data : List Nat) : Nat → Nat → Nat → Nat
  | 0, _, checksum => checksum
  | remaining + 1, i, checksum =>
      checksum_loop data remaining (i + 1) ((checksum ^^^ data.getD i 0) % 256)

/-- XOR checksum of header, length and data of a packet (`calculate_checksum`). -/
def calculate_checksum (packet : Packet) : Nat :=
  let checksum := 0
  let checksum := (checksum ^^^ packet.header) % 256
  let checksum := (checksum ^^^ packet.length) % 256
  checksum_loop packet.data packet.length 0 checksum

/-! ## Sender -/

/-- The write loop of `protocol_send`: `putres i` is what the `i`-th call of
`putchar_raw` returns, `sent` collects the bytes passed to `putchar_raw`.
Returns whether every write went through, and the bytes passed. -/
def send_loop (sdk : Sdk) (putres : Nat → Int) (buffer : List Nat) :
    Nat → Nat → List Nat → Bool × List Nat
  | 0, _, sent => (true, sent)
  | remaining + 1, i, sent =>
      let result := putres i
      let sent := sent ++ [buffer.getD i 0]
      if result = sdk.PICO_ERROR_TIMEOUT ∨ result = sdk.PICO_ERROR_GENERIC then
        (false, sent)
      else
        send_loop sdk putres buffer remaining (i + 1) sent

/-- Result of `protocol_send`: the return value and the bytes handed to the
transport, in order. -/
structure SendResult where
  ret : Int
  sent : List Nat
deriving DecidableEq

/-- Builds a packet from `dataSize` bytes at `data` and writes it byte by byte
(`protocol_send`). The connection handle is not used by the code and is left
out; the debug output of `printf` is not modelled. -/
def protocol_send (sdk : Sdk) (putres : Nat → Int) (data : List Nat) (dataSize : Int) :
    SendResult :=
  if dataSize > MAX_PACKET_SIZE ∨ dataSize < 1 then
    { ret := -1, sent := [] }
  else
    let packet : Packet :=
      { header := HEADER_BYTE, length := toU8 dataSize,
        data := memcpy [] data dataSize.toNat, checksum := 0 }
    let packet : Packet := { packet with checksum := calculate_checksum packet }
    let buffer : List Nat :=
      [packet.header, packet.length] ++ packet.data.take packet.length ++ [packet.checksum]
    match send_loop sdk putres buffer (packet.length + 3) 0 [] with
    | (false, sent) => { ret := -1, sent := sent }
    | (true, sent) => { ret := dataSize, sent := sent }

/-! ## Receiver -/

/-- One scripted call of `getchar_timeout_us`: it returns `result` after
`delay` microseconds. -/
structure RxEvent where
  delay : Nat
  result : Int
deriving DecidableEq

/-- State of the receiving side: the true time in microseconds, the outcomes
of the coming reads, and the number of reads made so far. -/
structure World where
  now : Nat
  rx : List RxEvent
  reads : Nat
deriving DecidableEq

/-- The free-running 32-bit microsecond counter (`time_us_32`). -/
def time_us_32 (w : World) : Nat := w.now % 2 ^ 32

/-- One read with a timeout (`getchar_timeout_us`): the next scripted outcome;
once the script is used up nothing arrives any more and the read times out. -/
def getchar_timeout_us (sdk : Sdk) (timeout_us : Nat) (w : World) : Int × World :=
  match w.rx with
  | [] => (sdk.PICO_ERROR_TIMEOUT,
      { now := w.now + timeout_us, rx := [], reads := w.reads + 1 })
  | e :: rest => (e.result, { now := w.now + e.delay, rx := rest, reads := w.reads + 1 })

/-- The deadline test `(time_us_32() - start_time) / 1000000 > 10` on the
counter reading `t`, in unsigned 32-bit arithmetic. -/
def deadline_exceeded (start_time t : Nat) : Bool :=
  decide (((t + 2 ^ 32 - start_time) % 2 ^ 32) / 1000000 > 10)

/-- The payload loop of `protocol_receive` with `remaining` bytes to go:
`none` when the deadline test fires, else the bytes stored in `packet.data`. -/
def receive_payload (sdk : Sdk) (start_time : Nat) :
    Nat → List Nat → World → Option (List Nat) × World
  | 0, data, w => (some data, w)
  | remaining + 1, data, w =>
      if deadline_exceeded start_time (time_us_32 w) then (none, w)
      else
        let r := getchar_timeout_us sdk 5000000 w
        receive_payload sdk start_time remaining (data ++ [toU8 r.1]) r.2

/-- Result of `protocol_receive`: the return value, the destination buffer
and the state of the receiving side afterwards. -/
structure RecvResult where
  ret : Int
  buffer : List Nat
  world : World
deriving DecidableEq

/-- Reads one packet, checks it and copies the payload to `buffer`
(`protocol_receive`). The connection handle is not used by the code and is
left out; the debug output of `printf` is not modelled. -/
def protocol_receive (sdk : Sdk) (buffer : List Nat) (bufferSize : Int) (w : World) :
    RecvResult :=
  if bufferSize ≤ 0 then { ret := -1, buffer := buffer, world := w }
  else
    let start_time := time_us_32 w
    let r := getchar_timeout_us sdk 5000000 w
    let header := toU8 r.1
    let w := r.2
    if header ≠ HEADER_BYTE then { ret := -1, buffer := buffer, world := w }
    else
      let r := getchar_timeout_us sdk 5000000 w
      let length := toU8 r.1
      let w := r.2
      if (length : Int) > MAX_PACKET_SIZE ∨ (length : Int) > bufferSize then
        { ret := -1, buffer := buffer, world := w }
      else
        match receive_payload sdk start_time length [] w with
        | (none, w) => { ret := -1, buffer := buffer, world := w }
        | (some data, w) =>
          if deadline_exceeded start_time (time_us_32 w) then
            { ret := -1, buffer := buffer, world := w }
          else
            let r := getchar_timeout_us sdk 5000000 w
            let w := r.2
            let packet : Packet :=
              { header := header, length := length, data := data, checksum := toU8 r.1 }
            if calculate_checksum packet ≠ packet.checksum then
              { ret := -1, buffer := buffer, world := w }
            else
              { ret := packet.length, buffer := memcpy buffer packet.data packet.length,
                world := w }

/-! ## Echo loop -/

/-- What one pass of the `while (1)` loop of `main` leaves behind: the value
of `bytes_received`, the buffer, the state of the receiving side, and the
result of `protocol_send` when it was called. -/
structure EchoResult where
  bytes_received : Int
  buffer : List Nat
  world : World
  echoed : Option SendResult
deriving DecidableEq

/-- One pass of the loop of `main`: receive into the 256-byte `buffer` with
`sizeof(buffer)` as size; when `bytes_received > 0`, write the terminator
`buffer[bytes_received] = 0` and send `bytes_received` bytes of the buffer
back. -/
def main_iteration (sdk : Sdk) (putres : Nat → Int) (buffer : List Nat) (w : World) :
    EchoResult :=
  let r := protocol_receive sdk buffer 256 w
  let bytes_received := r.ret
  if bytes_received > 0 then
    let buffer := r.buffer.set bytes_received.toNat 0
    { bytes_received := bytes_received, buffer := buffer, world := r.world,
      echoed := some (protocol_send sdk putres buffer bytes_received) }
  else
    { bytes_received := bytes_received, buffer := r.buffer, world := r.world, echoed := none }

/-! ## Helpers for stating properties -/

/-- The SDK numbering with `PICO_ERROR_TIMEOUT = -1`, `PICO_ERROR_GENERIC = -2`. -/
def sdkA : Sdk := { PICO_ERROR_TIMEOUT := -1, PICO_ERROR_GENERIC := -2 }

/-- The SDK numbering with `PICO_ERROR_GENERIC = -1`, `PICO_ERROR_TIMEOUT = -2`. -/
def sdkB : Sdk := { PICO_ERROR_TIMEOUT := -2, PICO_ERROR_GENERIC := -1 }

/-- A write went through: `putchar_raw` returned neither error code. -/
def writeOk (sdk : Sdk) (result : Int) : Prop :=
  result ≠ sdk.PICO_ERROR_TIMEOUT ∧ result ≠ sdk.PICO_ERROR_GENERIC

instance (sdk : Sdk) (result : Int) : Decidable (writeOk sdk result) := by
  unfold writeOk; infer_instance

/-- The receiving side after `k` further reads. -/
def afterReads (sdk : Sdk) : Nat → World → World
  | 0, w => w
  | k + 1, w => afterReads sdk k (getchar_timeout_us sdk 5000000 w).2

/-- What read number `k` (counted from 0) returns, from state `w` on. -/
def readResult (sdk : Sdk) (w : World) (k : Nat) : Int :=
  (getchar_timeout_us sdk 5000000 (afterReads sdk k w)).1

/-- The byte that read number `k` stores in a `uint8_t`. -/
def readByte (sdk : Sdk) (w : World) (k : Nat) : Nat := toU8 (readResult sdk w k)

/-- The bytes that the payload loop stores for a declared length `n`: reads
number 2 to `n + 1` of the call. -/
def payloadRead (sdk : Sdk) (w : World) (n : Nat) : List Nat :=
  (List.range n).map (fun k => readByte sdk w (k + 2))

/-- The conditions under which `protocol_receive` delivers a payload:
a usable buffer size, the header byte, a length within the buffer, no deadline
test firing, and a matching checksum. -/
def Accepts (sdk : Sdk) (bufferSize : Int) (w : World) : Prop :=
  0 < bufferSize ∧ readByte sdk w 0 = HEADER_BYTE ∧
    (readByte sdk w 1 : Int) ≤ bufferSize ∧
    (∀ k, k < readByte sdk w 1 + 1 →
      deadline_exceeded (time_us_32 w) (time_us_32 (afterReads sdk (k + 2) w)) = false) ∧
    calculate_checksum
      { header := HEADER_BYTE, length := readByte sdk w 1,
        data := payloadRead sdk w (readByte sdk w 1), checksum := 0 } =
      readByte sdk w (readByte sdk w 1 + 2)

/-- The byte sequence `frame` with bit number `bit` of the byte at index
`pos` inverted. -/
def flipBit (frame : List Nat) (pos bit : Nat) : List Nat :=
  frame.set pos (frame.getD pos 0 ^^^ 2 ^ bit)

/-- A stream in which the read of the only payload byte times out after
5 seconds: header, length 1, timeout, and then the byte `c`. -/
def payloadTimeoutStream (sdk : Sdk) (c : Int) : World :=
  { now := 0,
    rx := [{ delay := 10, result := 0xAA }, { delay := 10, result := 1 },
      { delay := 5000000, result := sdk.PICO_ERROR_TIMEOUT }, { delay := 10, result := c }],
    reads := 0 }

/-- A stream in which the read of the checksum byte times out after 5 seconds:
header, length 1, the payload byte `b`, timeout. -/
def checksumTimeoutStream (sdk : Sdk) (b : Int) : World :=
  { now := 0,
    rx := [{ delay := 10, result := 0xAA }, { delay := 10, result := 1 },
      { delay := 10, result := b }, { delay := 5000000, result := sdk.PICO_ERROR_TIMEOUT }],
    reads := 0 }

/-- A valid frame for the payload `[0x42, 0x43, 0x44]` that arrives slowly:
the first two payload bytes take 4.9 s each and the third 0.5 s, so that more
than 10.3 s have gone by when the deadline is tested before the checksum read,
whether counted from the call, from the header byte or from the length byte. -/
def slowStream : World :=
  { now := 123,
    rx := [{ delay := 100, result := 0xAA }, { delay := 100, result := 3 },
      { delay := 4900000, result := 0x42 }, { delay := 4900000, result := 0x43 },
      { delay := 500000, result := 0x44 }, { delay := 1000, result := 0xEC }],
    reads := 0 }

/-- The 256-byte buffer of `main`, zeroed. -/
def echoBuffer : List Nat := List.replicate 256 0

/-- A receiving side at time `now` whose coming reads return `results`,
each after `delay` microseconds. -/
def streamOf (now delay : Nat) (results : List Int) : World :=
  { now := now, rx := results.map (fun r => { delay := delay, result := r }), reads := 0 }

/-- The frame of the payload `[1, 2, 3]`, one byte every millisecond. -/
def echoStream : World := streamOf 0 1000 [0xAA, 3, 1, 2, 3, 0xA9]

/-- XOR of `c` with all entries of a list. -/
def xorAll (c : Nat) (l : List Nat) : Nat := l.foldl (fun a b => a ^^^ b) c

/-- The frame of a payload: header, length, payload, checksum. -/
def frameOf (p : List Nat) : List Nat :=
  [HEADER_BYTE, p.length] ++ p ++
    [calculate_checksum { header := HEADER_BYTE, length := p.length, data := p, checksum := 0 }]

/-! ## Arithmetic of bytes -/

theorem toU8_ofNat (n : Nat) (h : n < 256) : toU8 (n : Int) = n := by
  unfold toU8
  omega

theorem toU8_lt (x : Int) : toU8 x < 256 := by
  unfold toU8
  omega

theorem xor_mod_256 (a b : Nat) : ((a % 256) ^^^ b) % 256 = (a ^^^ b) % 256 := by
  apply Nat.eq_of_testBit_eq
  intro i
  have h : (256 : Nat) = 2 ^ 8 := by norm_num
  rw [h]
  simp only [Nat.testBit_mod_two_pow, Nat.testBit_xor]
  by_cases hi : i < 8 <;> simp [hi]

theorem xorAll_cons (c d : Nat) (l : List Nat) : xorAll c (d :: l) = xorAll (c ^^^ d) l := rfl

theorem xorAll_mod (l : List Nat) : ∀ c : Nat, xorAll (c % 256) l % 256 = xorAll c l % 256 := by
  induction l with
  | nil => intro c; simp [xorAll]
  | cons d l ih =>
    intro c
    rw [xorAll_cons, xorAll_cons, ← ih (c % 256 ^^^ d), ← ih (c ^^^ d), xor_mod_256]

theorem xorAll_lt (l : List Nat) : ∀ c : Nat, c < 256 → (∀ b ∈ l, b < 256) → xorAll c l < 256 := by
  induction l with
  | nil => intro c hc _; simpa [xorAll] using hc
  | cons d l ih =>
    intro c hc hl
    rw [xorAll_cons]
    apply ih
    · have hd : d < 256 := hl d (List.mem_cons_self d l)
      exact Nat.xor_lt_two_pow (n := 8) hc hd
    · intro b hb
      exact hl b (List.mem_cons_of_mem d hb)

theorem xorAll_xor (l : List Nat) : ∀ c x : Nat, xorAll (c ^^^ x) l = xorAll c l ^^^ x := by
  induction l with
  | nil => intro c x; rfl
  | cons d l ih =>
    intro c x
    rw [xorAll_cons, xorAll_cons, Nat.xor_assoc, Nat.xor_comm x d, ← Nat.xor_assoc, ih]

/-! ## Checksum lemmas -/

theorem checksum_loop_cons (d : Nat) (ds : List Nat) :
    ∀ (r i c : Nat), checksum_loop (d :: ds) r (i + 1) c = checksum_loop ds r i c := by
  intro r
  induction r with
  | zero => intro i c; rfl
  | succ r ih =>
    intro i c
    simp only [checksum_loop, List.getD_cons_succ]
    exact ih (i + 1) _

theorem checksum_loop_nil : ∀ (r i c : Nat), c < 256 → checksum_loop [] r i c = c := by
  intro r
  induction r with
  | zero => intro i c _; rfl
  | succ r ih =>
    intro i c hc
    simp only [checksum_loop, List.getD_nil, Nat.xor_zero]
    rw [Nat.mod_eq_of_lt hc]
    exact ih (i + 1) c hc

theorem checksum_loop_eq (data : List Nat) :
    ∀ (r c : Nat), c < 256 → checksum_loop data r 0 c = xorAll c (data.take r) % 256 := by
  induction data with
  | nil =>
    intro r c hc
    rw [checksum_loop_nil r 0 c hc]
    simp [xorAll, Nat.mod_eq_of_lt hc]
  | cons d ds ih =>
    intro r c hc
    cases r with
    | zero => simp [checksum_loop, xorAll, Nat.mod_eq_of_lt hc]
    | succ r =>
      simp only [checksum_loop, List.getD_cons_zero, List.take_succ_cons, xorAll_cons]
      rw [checksum_loop_cons, ih r _ (Nat.mod_lt _ (by norm_num)), xorAll_mod]

theorem calculate_checksum_eq (p : Packet) :
    calculate_checksum p = xorAll (p.header ^^^ p.length) (p.data.take p.length) % 256 := by
  unfold calculate_checksum
  simp only [Nat.zero_xor]
  rw [checksum_loop_eq _ _ _ (Nat.mod_lt _ (by norm_num)), xorAll_mod,
    ← xorAll_mod _ (p.header % 256 ^^^ p.length), xor_mod_256, xorAll_mod]

theorem calculate_checksum_lt (p : Packet) : calculate_checksum p < 256 := by
  rw [calculate_checksum_eq]
  exact Nat.mod_lt _ (by norm_num)

/-! ## Sender lemmas -/

theorem send_loop_fst (sdk : Sdk) (putres : Nat → Int) (buffer : List Nat) :
    ∀ (r i : Nat) (sent : List Nat),
      (send_loop sdk putres buffer r i sent).1 = true ↔
        ∀ k, i ≤ k → k < i + r → writeOk sdk (putres k) := by
  intro r
  induction r with
  | zero =>
    intro i sent
    simp only [send_loop, true_iff]
    intro k h1 h2
    omega
  | succ r ih =>
    intro i sent
    simp only [send_loop]
    by_cases h : putres i = sdk.PICO_ERROR_TIMEOUT ∨ putres i = sdk.PICO_ERROR_GENERIC
    · rw [if_pos h]
      constructor
      · intro hf
        exact absurd hf (by simp)
      · intro hall
        have hok := hall i (Nat.le_refl i) (by omega)
        unfold writeOk at hok
        rcases h with h | h
        · exact absurd h hok.1
        · exact absurd h hok.2
    · rw [if_neg h, ih]
      constructor
      · intro hall k h1 h2
        by_cases hk : k = i
        · subst hk
          unfold writeOk
          exact ⟨fun e => h (Or.inl e), fun e => h (Or.inr e)⟩
        · exact hall k (by omega) (by omega)
      · intro hall k h1 h2
        exact hall k (by omega) (by omega)

theorem send_loop_ok (sdk : Sdk) (putres : Nat → Int) (buffer : List Nat) :
    ∀ (r i : Nat) (sent : List Nat), i + r ≤ buffer.length →
      (∀ k, i ≤ k → k < i + r → writeOk sdk (putres k)) →
      send_loop sdk putres buffer r i sent = (true, sent ++ (buffer.drop i).take r) := by
  intro r
  induction r with
  | zero =>
    intro i sent _ _
    simp [send_loop]
  | succ r ih =>
    intro i sent hlen hall
    have hok := hall i (Nat.le_refl i) (by omega)
    unfold writeOk at hok
    have h : ¬ (putres i = sdk.PICO_ERROR_TIMEOUT ∨ putres i = sdk.PICO_ERROR_GENERIC) := by
      intro h
      rcases h with h | h
      · exact hok.1 h
      · exact hok.2 h
    have hi : i < buffer.length := by omega
    simp only [send_loop]
    rw [if_neg h, ih (i + 1) _ (by omega) (fun k h1 h2 => hall k (by omega) (by omega))]
    rw [List.drop_eq_getElem_cons hi, List.getD_eq_getElem buffer 0 hi, List.take_succ_cons,
      List.append_assoc]
    rfl

theorem protocol_send_reject (sdk : Sdk) (putres : Nat → Int) (data : List Nat)
    (dataSize : Int) (h : dataSize < 1 ∨ 255 < dataSize) :
    protocol_send sdk putres data dataSize = { ret := -1, sent := [] } := by
  unfold protocol_send MAX_PACKET_SIZE
  have h2 : dataSize > ((255 : Nat) : Int) ∨ dataSize < 1 := by
    rcases h with h | h
    · exact Or.inr h
    · exact Or.inl (by simpa using h)
  rw [if_pos h2]

theorem protocol_send_ret (sdk : Sdk) (putres : Nat → Int) (data : List Nat)
    (dataSize : Int) (h1 : 1 ≤ dataSize) (h2 : dataSize ≤ 255) :
    ((protocol_send sdk putres data dataSize).ret = dataSize ↔
        ∀ k, k < dataSize.toNat + 3 → writeOk sdk (putres k)) ∧
      ((protocol_send sdk putres data dataSize).ret = dataSize ∨
        (protocol_send sdk putres data dataSize).ret = -1) := by
  have hn : toU8 dataSize = dataSize.toNat := by
    unfold toU8
    omega
  have hc : ¬ (dataSize > ((255 : Nat) : Int) ∨ dataSize < 1) := by
    intro h
    rcases h with h | h
    · have : (255 : Int) < dataSize := by simpa using h
      omega
    · omega
  unfold protocol_send MAX_PACKET_SIZE
  rw [if_neg hc]
  simp only [hn]
  generalize hb : ([HEADER_BYTE, dataSize.toNat] ++
    List.take dataSize.toNat (memcpy [] data dataSize.toNat) ++
      [calculate_checksum _]) = buffer
  have key := send_loop_fst sdk putres buffer (dataSize.toNat + 3) 0 []
  rcases hs : send_loop sdk putres buffer (dataSize.toNat + 3) 0 [] with ⟨ok, sent⟩
  rw [hs] at key
  cases ok with
  | true =>
    simp only [true_iff] at key
    refine ⟨⟨fun _ k hk => key k (Nat.zero_le k) (by omega), fun _ => rfl⟩, Or.inl rfl⟩
  | false =>
    simp only [Bool.false_eq_true, false_iff] at key
    refine ⟨⟨fun h => ?_, fun hall => ?_⟩, Or.inr rfl⟩
    · simp only at h
      omega
    · exact absurd (fun k _ hk => hall k (by omega)) key

theorem frameOf_length (p : List Nat) : (frameOf p).length = p.length + 3 := by
  simp [frameOf]

theorem protocol_send_ok (sdk : Sdk) (putres : Nat → Int) (p : List Nat)
    (h1 : 1 ≤ p.length) (h2 : p.length ≤ 255)
    (hw : ∀ k, k < p.length + 3 → writeOk sdk (putres k)) :
    protocol_send sdk putres p (p.length : Int) = { ret := p.length, sent := frameOf p } := by
  have hn : toU8 (p.length : Int) = p.length := toU8_ofNat _ (by omega)
  have hc : ¬ ((p.length : Int) > ((255 : Nat) : Int) ∨ (p.length : Int) < 1) := by
    omega
  unfold protocol_send MAX_PACKET_SIZE
  rw [if_neg hc]
  simp only [hn, Int.toNat_ofNat, memcpy, List.take_length, List.drop_nil, List.append_nil]
  have hf : ([HEADER_BYTE, p.length] ++ p ++
      [calculate_checksum
        { header := HEADER_BYTE, length := p.length, data := p, checksum := 0 }]) =
      frameOf p := rfl
  rw [hf, send_loop_ok sdk putres (frameOf p) (p.length + 3) 0 []
    (by rw [frameOf_length]; omega) (fun k _ hk => hw k (by omega))]
  simp only [List.drop_zero, List.nil_append]
  rw [List.take_of_length_le (by rw [frameOf_length])]

/-! ## Receiver lemmas -/

theorem afterReads_succ (sdk : Sdk) : ∀ (k : Nat) (w : World),
    afterReads sdk (k + 1) w = (getchar_timeout_us sdk 5000000 (afterReads sdk k w)).2 := by
  intro k
  induction k with
  | zero => intro w; rfl
  | succ k ih =>
    intro w
    show afterReads sdk (k + 1) (getchar_timeout_us sdk 5000000 w).2 = _
    rw [ih]
    rfl

theorem afterReads_add (sdk : Sdk) : ∀ (a b : Nat) (w : World),
    afterReads sdk a (afterReads sdk b w) = afterReads sdk (a + b) w := by
  intro a b
  induction b with
  | zero => intro w; rfl
  | succ b ih =>
    intro w
    show afterReads sdk a (afterReads sdk b (getchar_timeout_us sdk 5000000 w).2) =
      afterReads sdk (a + b) (getchar_timeout_us sdk 5000000 w).2
    exact ih _

theorem afterReads_reads (sdk : Sdk) : ∀ (k : Nat) (w : World),
    (afterReads sdk k w).reads = w.reads + k := by
  intro k
  induction k with
  | zero => intro w; rfl
  | succ k ih =>
    intro w
    show (afterReads sdk k (getchar_timeout_us sdk 5000000 w).2).reads = _
    rw [ih]
    unfold getchar_timeout_us
    cases w.rx <;> simp <;> omega

theorem afterReads_rx (sdk : Sdk) : ∀ (k : Nat) (w : World),
    (afterReads sdk k w).rx = w.rx.drop k := by
  intro k
  induction k with
  | zero => intro w; rfl
  | succ k ih =>
    intro w
    show (afterReads sdk k (getchar_timeout_us sdk 5000000 w).2).rx = _
    rw [ih]
    unfold getchar_timeout_us
    cases w.rx <;> simp

theorem readResult_of_lt (sdk : Sdk) (w : World) (k : Nat) (h : k < w.rx.length) :
    readResult sdk w k = (w.rx.get ⟨k, h⟩).result := by
  unfold readResult getchar_timeout_us
  rw [afterReads_rx, List.drop_eq_getElem_cons h]
  rfl

theorem readResult_of_ge (sdk : Sdk) (w : World) (k : Nat) (h : w.rx.length ≤ k) :
    readResult sdk w k = sdk.PICO_ERROR_TIMEOUT := by
  unfold readResult getchar_timeout_us
  rw [afterReads_rx, List.drop_of_length_le h]

theorem readByte_afterReads (sdk : Sdk) (w : World) (j k : Nat) :
    readByte sdk (afterReads sdk j w) k = readByte sdk w (k + j) := by
  unfold readByte readResult
  rw [afterReads_add]

theorem receive_payload_ok (sdk : Sdk) (st : Nat) : ∀ (n : Nat) (data : List Nat) (w : World),
    (∀ k, k < n → deadline_exceeded st (time_us_32 (afterReads sdk k w)) = false) →
    receive_payload sdk st n data w =
      (some (data ++ (List.range n).map (readByte sdk w)), afterReads sdk n w) := by
  intro n
  induction n with
  | zero =>
    intro data w _
    simp [receive_payload, afterReads]
  | succ n ih =>
    intro data w h
    have h0 : deadline_exceeded st (time_us_32 w) = false := h 0 (Nat.succ_pos n)
    simp only [receive_payload, h0]
    rw [ih _ _ (fun k hk => h (k + 1) (by omega))]
    simp only [Bool.false_eq_true, if_false, List.range_succ_eq_map, List.map_cons, List.map_map,
      List.append_assoc, List.singleton_append]
    rfl

theorem receive_payload_trip (sdk : Sdk) (st : Nat) : ∀ (n : Nat) (data : List Nat) (w : World)
    (k : Nat), k < n →
    (∀ j, j < k → deadline_exceeded st (time_us_32 (afterReads sdk j w)) = false) →
    deadline_exceeded st (time_us_32 (afterReads sdk k w)) = true →
    receive_payload sdk st n data w = (none, afterReads sdk k w) := by
  intro n
  induction n with
  | zero =>
    intro data w k hk
    omega
  | succ n ih =>
    intro data w k hk hbefore hat
    cases k with
    | zero =>
      have h0 : deadline_exceeded st (time_us_32 w) = true := hat
      simp [receive_payload, h0, afterReads]
    | succ k =>
      have h0 : deadline_exceeded st (time_us_32 w) = false := hbefore 0 (Nat.succ_pos k)
      simp only [receive_payload, h0]
      exact ih _ _ k (by omega) (fun j hj => hbefore (j + 1) (by omega)) hat

theorem receive_payload_some (sdk : Sdk) (st : Nat) : ∀ (n : Nat) (data : List Nat) (w : World)
    (d : List Nat) (w' : World), receive_payload sdk st n data w = (some d, w') →
    ∀ k, k < n → deadline_exceeded st (time_us_32 (afterReads sdk k w)) = false := by
  intro n
  induction n with
  | zero =>
    intro data w d w' _ k hk
    omega
  | succ n ih =>
    intro data w d w' h k hk
    simp only [receive_payload] at h
    by_cases h0 : deadline_exceeded st (time_us_32 w) = true
    · rw [if_pos h0] at h
      simp at h
    · rw [if_neg h0] at h
      cases k with
      | zero => simpa using h0
      | succ k => exact ih _ _ d w' h k (by omega)

theorem calculate_checksum_congr (h l : Nat) (d : List Nat) (c c' : Nat) :
    calculate_checksum { header := h, length := l, data := d, checksum := c } =
      calculate_checksum { header := h, length := l, data := d, checksum := c' } := rfl

theorem payloadRead_eq (sdk : Sdk) (w : World) (n : Nat) :
    (List.range n).map (readByte sdk (afterReads sdk 2 w)) = payloadRead sdk w n := by
  unfold payloadRead
  apply List.map_congr_left
  intro k _
  exact readByte_afterReads sdk w 2 k

theorem protocol_receive_ok (sdk : Sdk) (buffer : List Nat) (bufferSize : Int) (w : World)
    (h : Accepts sdk bufferSize w) :
    protocol_receive sdk buffer bufferSize w =
      { ret := readByte sdk w 1,
        buffer := memcpy buffer (payloadRead sdk w (readByte sdk w 1)) (readByte sdk w 1),
        world := afterReads sdk (readByte sdk w 1 + 3) w } := by
  obtain ⟨hbs, hhdr, hlen, hdl, hck⟩ := h
  have e0 : toU8 (getchar_timeout_us sdk 5000000 w).1 = readByte sdk w 0 := rfl
  have e1 : toU8 (getchar_timeout_us sdk 5000000 (getchar_timeout_us sdk 5000000 w).2).1 =
      readByte sdk w 1 := rfl
  have e2 : (getchar_timeout_us sdk 5000000 (getchar_timeout_us sdk 5000000 w).2).2 =
      afterReads sdk 2 w := rfl
  have hb : readByte sdk w 1 < 256 := toU8_lt _
  have hc1 : ¬ bufferSize ≤ 0 := by omega
  have hc3 : ¬ (((readByte sdk w 1 : Nat) : Int) > ((255 : Nat) : Int) ∨
      ((readByte sdk w 1 : Nat) : Int) > bufferSize) := by omega
  have hp := receive_payload_ok sdk (time_us_32 w) (readByte sdk w 1) [] (afterReads sdk 2 w)
    (fun k hk => by
      rw [afterReads_add]
      exact hdl k (by omega))
  rw [payloadRead_eq, afterReads_add, List.nil_append] at hp
  have hd := hdl (readByte sdk w 1) (by omega)
  have e3 : toU8 (getchar_timeout_us sdk 5000000 (afterReads sdk (readByte sdk w 1 + 2) w)).1 =
      readByte sdk w (readByte sdk w 1 + 2) := rfl
  have e4 : (getchar_timeout_us sdk 5000000 (afterReads sdk (readByte sdk w 1 + 2) w)).2 =
      afterReads sdk (readByte sdk w 1 + 3) w := (afterReads_succ sdk _ w).symm
  unfold protocol_receive MAX_PACKET_SIZE
  rw [if_neg hc1]
  simp only [e0, e1, e2, hhdr, ne_eq, not_true_eq_false, if_false]
  rw [if_neg hc3, hp]
  simp only [hd, Bool.false_eq_true, if_false, e3, e4]
  rw [calculate_checksum_congr _ _ _ _ 0, hck]
  simp

theorem protocol_receive_inv (sdk : Sdk) (buffer : List Nat) (bufferSize : Int) (w : World)
    (h : (protocol_receive sdk buffer bufferSize w).ret ≠ -1) : Accepts sdk bufferSize w := by
  have e0 : toU8 (getchar_timeout_us sdk 5000000 w).1 = readByte sdk w 0 := rfl
  have e1 : toU8 (getchar_timeout_us sdk 5000000 (getchar_timeout_us sdk 5000000 w).2).1 =
      readByte sdk w 1 := rfl
  have e2 : (getchar_timeout_us sdk 5000000 (getchar_timeout_us sdk 5000000 w).2).2 =
      afterReads sdk 2 w := rfl
  unfold protocol_receive MAX_PACKET_SIZE at h
  by_cases hc1 : bufferSize ≤ 0
  · rw [if_pos hc1] at h
    exact absurd rfl h
  rw [if_neg hc1] at h
  simp only [e0, e1, e2] at h
  by_cases hhdr : readByte sdk w 0 = HEADER_BYTE
  swap
  · rw [if_pos hhdr] at h
    exact absurd rfl h
  rw [if_neg (not_not.mpr hhdr)] at h
  by_cases hc3 : (((readByte sdk w 1 : Nat) : Int) > ((255 : Nat) : Int) ∨
      ((readByte sdk w 1 : Nat) : Int) > bufferSize)
  · rw [if_pos hc3] at h
    exact absurd rfl h
  rw [if_neg hc3] at h
  rcases hrp : receive_payload sdk (time_us_32 w) (readByte sdk w 1) [] (afterReads sdk 2 w)
    with ⟨od, w'⟩
  rw [hrp] at h
  cases od with
  | none => exact absurd rfl h
  | some d =>
    have hno := receive_payload_some sdk _ _ _ _ d w' hrp
    have hp := receive_payload_ok sdk (time_us_32 w) (readByte sdk w 1) [] (afterReads sdk 2 w) hno
    rw [payloadRead_eq, afterReads_add, List.nil_append, hrp] at hp
    simp only [Prod.mk.injEq, Option.some.injEq] at hp
    obtain ⟨hd, hw'⟩ := hp
    subst hd hw'
    simp only at h
    by_cases hdl : deadline_exceeded (time_us_32 w)
        (time_us_32 (afterReads sdk (readByte sdk w 1 + 2) w)) = true
    · rw [if_pos hdl] at h
      exact absurd rfl h
    rw [if_neg hdl] at h
    have e3 : toU8 (getchar_timeout_us sdk 5000000
        (afterReads sdk (readByte sdk w 1 + 2) w)).1 =
        readByte sdk w (readByte sdk w 1 + 2) := rfl
    simp only [e3] at h
    by_cases hck : calculate_checksum
        { header := readByte sdk w 0, length := readByte sdk w 1,
          data := payloadRead sdk w (readByte sdk w 1),
          checksum := readByte sdk w (readByte sdk w 1 + 2) } =
        readByte sdk w (readByte sdk w 1 + 2)
    swap
    · rw [if_pos hck] at h
      exact absurd rfl h
    refine ⟨by omega, hhdr, by omega, ?_, ?_⟩
    · intro k hk
      by_cases hk2 : k < readByte sdk w 1
      · have := hno k hk2
        rwa [afterReads_add] at this
      · have hkeq : k = readByte sdk w 1 := by omega
        subst hkeq
        simpa using hdl
    · rw [← hck, hhdr]
      rfl

/-! ## Reading a given byte sequence -/

theorem readByte_of_stream (sdk : Sdk) (w : World) (l : List Nat)
    (hrx : w.rx.map RxEvent.result = l.map Int.ofNat) (k : Nat) (hk : k < l.length)
    (hb : l.getD k 0 < 256) : readByte sdk w k = l.getD k 0 := by
  have hlen : w.rx.length = l.length := by
    have := congrArg List.length hrx
    simpa using this
  have hk' : k < w.rx.length := by omega
  have hget : (w.rx.map RxEvent.result)[k]? = (l.map Int.ofNat)[k]? := by rw [hrx]
  rw [List.getElem?_map, List.getElem?_map, List.getElem?_eq_getElem hk',
    List.getElem?_eq_getElem hk] at hget
  simp only [Option.map_some', Option.some.injEq] at hget
  unfold readByte
  rw [readResult_of_lt sdk w k hk', List.getD_eq_getElem l 0 hk]
  rw [List.getD_eq_getElem l 0 hk] at hb
  have : (w.rx.get ⟨k, hk'⟩).result = ((l[k] : Nat) : Int) := hget
  rw [this]
  exact toU8_ofNat _ hb

theorem payloadRead_of_stream (sdk : Sdk) (w : World) (a b : Nat) (p tail : List Nat)
    (hrx : w.rx.map RxEvent.result = (a :: b :: (p ++ tail)).map Int.ofNat)
    (hb : ∀ x ∈ p, x < 256) : payloadRead sdk w p.length = p := by
  apply List.ext_getElem
  · simp [payloadRead]
  · intro k h1 h2
    have hg : (a :: b :: (p ++ tail)).getD (k + 2) 0 = p[k] := by
      simp only [List.getD_cons_succ]
      rw [List.getD_append p tail 0 k h2, List.getD_eq_getElem p 0 h2]
    have hr := readByte_of_stream sdk w (a :: b :: (p ++ tail)) hrx (k + 2)
      (by simp; omega) (by rw [hg]; exact hb _ (List.getElem_mem h2))
    rw [hg] at hr
    simp only [payloadRead, List.getElem_map, List.getElem_range]
    exact hr

theorem checksumRead_of_stream (sdk : Sdk) (w : World) (a b c : Nat) (p tail : List Nat)
    (hrx : w.rx.map RxEvent.result = (a :: b :: (p ++ c :: tail)).map Int.ofNat)
    (hc : c < 256) : readByte sdk w (p.length + 2) = c := by
  have hg : (a :: b :: (p ++ c :: tail)).getD (p.length + 2) 0 = c := by
    simp only [List.getD_cons_succ]
    rw [List.getD_append_right p (c :: tail) 0 p.length (Nat.le_refl _)]
    simp
  have hr := readByte_of_stream sdk w (a :: b :: (p ++ c :: tail)) hrx (p.length + 2)
    (by simp) (by rw [hg]; exact hc)
  rw [hg] at hr
  exact hr

theorem headerRead_of_stream (sdk : Sdk) (w : World) (a : Nat) (tail : List Nat)
    (hrx : w.rx.map RxEvent.result = (a :: tail).map Int.ofNat) (ha : a < 256) :
    readByte sdk w 0 = a :=
  readByte_of_stream sdk w (a :: tail) hrx 0 (by simp) (by simpa using ha)

theorem lengthRead_of_stream (sdk : Sdk) (w : World) (a b : Nat) (tail : List Nat)
    (hrx : w.rx.map RxEvent.result = (a :: b :: tail).map Int.ofNat) (hb : b < 256) :
    readByte sdk w 1 = b :=
  readByte_of_stream sdk w (a :: b :: tail) hrx 1 (by simp) (by simpa using hb)

/-- Receiving the frame `[0xAA, n, p..., c]` with the right checksum `c` and no
deadline test firing delivers `p`. -/
theorem protocol_receive_frame (sdk : Sdk) (buffer : List Nat) (bufferSize : Int) (w : World)
    (p tail : List Nat) (c : Nat) (hlen : p.length ≤ 255) (hbytes : ∀ b ∈ p, b < 256)
    (hbuf : (p.length : Int) ≤ bufferSize) (hpos : 0 < bufferSize)
    (hc : calculate_checksum
      { header := HEADER_BYTE, length := p.length, data := p, checksum := 0 } = c)
    (hrx : w.rx.map RxEvent.result =
      (HEADER_BYTE :: p.length :: (p ++ c :: tail)).map Int.ofNat)
    (hdl : ∀ k, k < p.length + 1 →
      deadline_exceeded (time_us_32 w) (time_us_32 (afterReads sdk (k + 2) w)) = false) :
    protocol_receive sdk buffer bufferSize w =
      { ret := p.length, buffer := p ++ buffer.drop p.length,
        world := afterReads sdk (p.length + 3) w } := by
  have h0 : readByte sdk w 0 = HEADER_BYTE :=
    headerRead_of_stream sdk w _ _ hrx (by unfold HEADER_BYTE; norm_num)
  have h1 : readByte sdk w 1 = p.length := lengthRead_of_stream sdk w _ _ _ hrx (by omega)
  have h2 : payloadRead sdk w p.length = p := payloadRead_of_stream sdk w _ _ p _ hrx hbytes
  have h3 : readByte sdk w (p.length + 2) = c :=
    checksumRead_of_stream sdk w _ _ c p tail hrx (by rw [← hc]; exact calculate_checksum_lt _)
  have hacc : Accepts sdk bufferSize w := by
    refine ⟨hpos, h0, by rw [h1]; exact hbuf, by rw [h1]; exact hdl, ?_⟩
    rw [h1, h2, h3]
    exact hc
  rw [protocol_receive_ok sdk buffer bufferSize w hacc, h1, h2]
  simp [memcpy]

/-! ## Flipped bits -/

theorem xor_two_pow_ne (x bit : Nat) : x ^^^ 2 ^ bit ≠ x := by
  intro h
  have h0 : x ^^^ 2 ^ bit = x ^^^ 0 := by rw [Nat.xor_zero]; exact h
  have := Nat.xor_right_inj.mp h0
  exact absurd this (Nat.pos_iff_ne_zero.mp (Nat.two_pow_pos bit))

theorem xor_two_pow_lt (x bit : Nat) (hx : x < 256) (hbit : bit < 8) : x ^^^ 2 ^ bit < 256 := by
  have h2 : 2 ^ bit < 2 ^ 8 := Nat.pow_lt_pow_right (by norm_num) hbit
  exact Nat.xor_lt_two_pow (n := 8) hx h2

theorem xorAll_set (l : List Nat) : ∀ (c i d : Nat), i < l.length →
    xorAll c (l.set i (l.getD i 0 ^^^ d)) = xorAll c l ^^^ d := by
  induction l with
  | nil => intro c i d h; simp at h
  | cons a l ih =>
    intro c i d h
    cases i with
    | zero =>
      simp only [List.set_cons_zero, List.getD_cons_zero, xorAll_cons]
      rw [← Nat.xor_assoc, xorAll_xor]
    | succ i =>
      simp only [List.set_cons_succ, List.getD_cons_succ, xorAll_cons]
      exact ih _ i d (by simpa using h)

theorem flipBit_frameOf_header (p : List Nat) (bit : Nat) :
    flipBit (frameOf p) 0 bit =
      (HEADER_BYTE ^^^ 2 ^ bit) :: p.length ::
        (p ++ [calculate_checksum
          { header := HEADER_BYTE, length := p.length, data := p, checksum := 0 }]) := by
  simp [flipBit, frameOf]

theorem flipBit_frameOf_payload (p : List Nat) (j bit : Nat) (hj : j < p.length) :
    flipBit (frameOf p) (j + 2) bit =
      HEADER_BYTE :: p.length ::
        (p.set j (p.getD j 0 ^^^ 2 ^ bit) ++ [calculate_checksum
          { header := HEADER_BYTE, length := p.length, data := p, checksum := 0 }]) := by
  unfold flipBit frameOf
  simp only [List.cons_append, List.nil_append, List.set_cons_succ, List.getD_cons_succ]
  rw [List.set_append_left _ _ hj, List.getD_append _ _ _ _ hj]

/-- A frame whose header byte or one payload byte has one bit inverted is
rejected, whatever the buffer size and the timing. -/
theorem protocol_receive_flipped (sdk : Sdk) (buffer : List Nat) (bufferSize : Int)
    (w : World) (p : List Nat) (pos bit : Nat)
    (hlen2 : p.length ≤ 255) (hbytes : ∀ b ∈ p, b < 256) (hbit : bit < 8)
    (hpos : pos = 0 ∨ (2 ≤ pos ∧ pos < p.length + 2))
    (hstream : w.rx.map RxEvent.result = (flipBit (frameOf p) pos bit).map Int.ofNat) :
    (protocol_receive sdk buffer bufferSize w).ret = -1 := by
  by_contra hne
  obtain ⟨_, h0, _, _, hck⟩ := protocol_receive_inv sdk buffer bufferSize w hne
  rcases hpos with hpos | ⟨hp2, hpn⟩
  · subst hpos
    rw [flipBit_frameOf_header] at hstream
    have hh := headerRead_of_stream sdk w _ _ hstream
      (xor_two_pow_lt _ _ (by unfold HEADER_BYTE; norm_num) hbit)
    rw [h0] at hh
    exact xor_two_pow_ne _ _ hh.symm
  · obtain ⟨j, rfl⟩ : ∃ j, pos = j + 2 := ⟨pos - 2, by omega⟩
    have hj : j < p.length := by omega
    rw [flipBit_frameOf_payload p j bit hj] at hstream
    have hlen' : (p.set j (p.getD j 0 ^^^ 2 ^ bit)).length = p.length := List.length_set _ _ _
    have hbytes' : ∀ b ∈ p.set j (p.getD j 0 ^^^ 2 ^ bit), b < 256 := by
      intro b hb
      rcases List.mem_or_eq_of_mem_set hb with hb | hb
      · exact hbytes b hb
      · rw [hb, List.getD_eq_getElem p 0 hj]
        exact xor_two_pow_lt _ _ (hbytes _ (List.getElem_mem hj)) hbit
    have h1 : readByte sdk w 1 = p.length :=
      lengthRead_of_stream sdk w _ _ _ hstream (by omega)
    have h2 := payloadRead_of_stream sdk w _ _ _ _ hstream hbytes'
    have h3 := checksumRead_of_stream sdk w _ _ _ _ [] hstream (calculate_checksum_lt _)
    rw [hlen'] at h2 h3
    rw [h1, h2, h3, calculate_checksum_eq, calculate_checksum_eq] at hck
    simp only at hck
    rw [← hlen', List.take_length, hlen', List.take_length, xorAll_set _ _ _ _ hj] at hck
    have hX : xorAll (HEADER_BYTE ^^^ p.length) p < 256 :=
      xorAll_lt _ _ (Nat.xor_lt_two_pow (n := 8) (by unfold HEADER_BYTE; norm_num)
        (by omega)) hbytes
    rw [Nat.mod_eq_of_lt (xor_two_pow_lt _ _ hX hbit), Nat.mod_eq_of_lt hX] at hck
    exact xor_two_pow_ne _ _ hck

/-! ## Failure paths, buffer and clock -/

theorem protocol_receive_fail_or (sdk : Sdk) (buffer : List Nat) (bufferSize : Int)
    (w : World) :
    ((protocol_receive sdk buffer bufferSize w).ret = -1 ∧
        (protocol_receive sdk buffer bufferSize w).buffer = buffer) ∨
      (protocol_receive sdk buffer bufferSize w).ret ≠ -1 := by
  unfold protocol_receive
  dsimp only
  repeat' split
  all_goals first
    | exact Or.inl ⟨rfl, rfl⟩
    | exact Or.inr (fun h => absurd h (by
        show ¬ ((toU8 _ : Nat) : Int) = -1
        omega))

theorem protocol_receive_bad_header (sdk : Sdk) (buffer : List Nat) (bufferSize : Int)
    (w : World) (hbs : 0 < bufferSize) (hh : readByte sdk w 0 ≠ HEADER_BYTE) :
    protocol_receive sdk buffer bufferSize w =
      { ret := -1, buffer := buffer, world := afterReads sdk 1 w } := by
  have e0 : toU8 (getchar_timeout_us sdk 5000000 w).1 = readByte sdk w 0 := rfl
  have hc1 : ¬ bufferSize ≤ 0 := by omega
  unfold protocol_receive
  rw [if_neg hc1]
  simp only [e0]
  rw [if_pos hh]
  rfl

theorem protocol_receive_ret_of_accepts (sdk : Sdk) (buffer : List Nat) (bufferSize : Int)
    (w : World) (h : (protocol_receive sdk buffer bufferSize w).ret ≠ -1) :
    protocol_receive sdk buffer bufferSize w =
      { ret := readByte sdk w 1,
        buffer := memcpy buffer (payloadRead sdk w (readByte sdk w 1)) (readByte sdk w 1),
        world := afterReads sdk (readByte sdk w 1 + 3) w } :=
  protocol_receive_ok sdk buffer bufferSize w (protocol_receive_inv sdk buffer bufferSize w h)

theorem payloadRead_length (sdk : Sdk) (w : World) (n : Nat) :
    (payloadRead sdk w n).length = n := by
  simp [payloadRead]

theorem memcpy_payloadRead (sdk : Sdk) (w : World) (buffer : List Nat) (n : Nat) :
    memcpy buffer (payloadRead sdk w n) n = payloadRead sdk w n ++ buffer.drop n := by
  unfold memcpy
  rw [List.take_of_length_le (by rw [payloadRead_length])]

theorem elapsed_wrap (s d : Nat) :
    ((s + d) % 2 ^ 32 + 2 ^ 32 - s % 2 ^ 32) % 2 ^ 32 = d % 2 ^ 32 := by
  norm_num
  omega

theorem deadline_exceeded_elapsed (s d : Nat) :
    deadline_exceeded (s % 2 ^ 32) ((s + d) % 2 ^ 32) =
      decide (d % 2 ^ 32 / 1000000 > 10) := by
  unfold deadline_exceeded
  rw [elapsed_wrap]

theorem send_loop_fail (sdk : Sdk) (putres : Nat → Int) (buffer : List Nat) :
    ∀ (r i : Nat) (sent : List Nat) (j : Nat), i ≤ j → j < i + r → i + r ≤ buffer.length →
      (∀ k, i ≤ k → k < j → writeOk sdk (putres k)) →
      (putres j = sdk.PICO_ERROR_TIMEOUT ∨ putres j = sdk.PICO_ERROR_GENERIC) →
      send_loop sdk putres buffer r i sent =
        (false, sent ++ (buffer.drop i).take (j + 1 - i)) := by
  intro r
  induction r with
  | zero =>
    intro i sent j h1 h2
    omega
  | succ r ih =>
    intro i sent j h1 h2 hlen hbefore hbad
    have hi : i < buffer.length := by omega
    simp only [send_loop]
    rw [List.drop_eq_getElem_cons hi, List.getD_eq_getElem buffer 0 hi]
    by_cases hji : j = i
    · subst hji
      rw [if_pos hbad]
      have : j + 1 - j = 1 := by omega
      rw [this]
      rfl
    · have hok := hbefore i (Nat.le_refl i) (by omega)
      unfold writeOk at hok
      have h : ¬ (putres i = sdk.PICO_ERROR_TIMEOUT ∨ putres i = sdk.PICO_ERROR_GENERIC) := by
        intro h
        rcases h with h | h
        · exact hok.1 h
        · exact hok.2 h
      rw [if_neg h, ih (i + 1) _ j (by omega) (by omega) (by omega)
        (fun k hk1 hk2 => hbefore k (by omega) hk2) hbad]
      have : j + 1 - i = (j + 1 - (i + 1)) + 1 := by omega
      rw [this, List.take_succ_cons, List.append_assoc]
      rfl

theorem protocol_send_fail (sdk : Sdk) (putres : Nat → Int) (p : List Nat) (i : Nat)
    (h1 : 1 ≤ p.length) (h2 : p.length ≤ 255) (hi : i < p.length + 3)
    (hbefore : ∀ k, k < i → writeOk sdk (putres k))
    (hbad : putres i = sdk.PICO_ERROR_TIMEOUT ∨ putres i = sdk.PICO_ERROR_GENERIC) :
    protocol_send sdk putres p (p.length : Int) =
      { ret := -1, sent := (frameOf p).take (i + 1) } := by
  have hn : toU8 (p.length : Int) = p.length := toU8_ofNat _ (by omega)
  have hc : ¬ ((p.length : Int) > ((255 : Nat) : Int) ∨ (p.length : Int) < 1) := by
    omega
  unfold protocol_send MAX_PACKET_SIZE
  rw [if_neg hc]
  simp only [hn, Int.toNat_ofNat, memcpy, List.take_length, List.drop_nil, List.append_nil]
  have hf : ([HEADER_BYTE, p.length] ++ p ++
      [calculate_checksum
        { header := HEADER_BYTE, length := p.length, data := p, checksum := 0 }]) =
      frameOf p := rfl
  rw [hf, send_loop_fail sdk putres (frameOf p) (p.length + 3) 0 [] i (Nat.zero_le i)
    (by omega) (by rw [frameOf_length]; omega) (fun k _ hk => hbefore k hk) hbad]
  simp only [List.drop_zero, List.nil_append, Nat.sub_zero]

theorem xor_ne_self (x d : Nat) (hd : d ≠ 0) : x ^^^ d ≠ x := by
  intro h
  have h0 : x ^^^ d = x ^^^ 0 := by rw [Nat.xor_zero]; exact h
  exact hd (Nat.xor_right_inj.mp h0)

theorem frameOf_set_payload (p : List Nat) (j v : Nat) (hj : j < p.length) :
    (frameOf p).set (j + 2) v =
      HEADER_BYTE :: p.length ::
        (p.set j v ++ [calculate_checksum
          { header := HEADER_BYTE, length := p.length, data := p, checksum := 0 }]) := by
  unfold frameOf
  simp only [List.cons_append, List.nil_append, List.set_cons_succ]
  rw [List.set_append_left _ _ hj]

theorem frameOf_set_checksum (p : List Nat) (v : Nat) :
    (frameOf p).set (p.length + 2) v = HEADER_BYTE :: p.length :: (p ++ [v]) := by
  unfold frameOf
  simp only [List.cons_append, List.nil_append, List.set_cons_succ]
  rw [List.set_append_right _ _ (Nat.le_refl _)]
  simp

/-- A frame in which one payload byte or the checksum byte is replaced by a
different byte is rejected, whatever the buffer size and the timing. -/
theorem protocol_receive_replaced (sdk : Sdk) (buffer : List Nat) (bufferSize : Int)
    (w : World) (p : List Nat) (pos v : Nat)
    (hlen2 : p.length ≤ 255) (hbytes : ∀ b ∈ p, b < 256) (hv : v < 256)
    (hpos : 2 ≤ pos ∧ pos < p.length + 3) (hne : v ≠ (frameOf p).getD pos 0)
    (hstream : w.rx.map RxEvent.result = ((frameOf p).set pos v).map Int.ofNat) :
    (protocol_receive sdk buffer bufferSize w).ret = -1 := by
  by_contra hret
  obtain ⟨_, _, _, _, hck⟩ := protocol_receive_inv sdk buffer bufferSize w hret
  obtain ⟨j, rfl⟩ : ∃ j, pos = j + 2 := ⟨pos - 2, by omega⟩
  by_cases hj : j < p.length
  · rw [frameOf_set_payload p j v hj] at hstream
    have hget : (frameOf p).getD (j + 2) 0 = p.getD j 0 := by
      unfold frameOf
      simp only [List.cons_append, List.nil_append, List.getD_cons_succ]
      exact List.getD_append _ _ _ _ hj
    rw [hget] at hne
    have hpj : p.getD j 0 < 256 := by
      rw [List.getD_eq_getElem p 0 hj]
      exact hbytes _ (List.getElem_mem hj)
    have hd0 : p.getD j 0 ^^^ v ≠ 0 := by
      intro h
      exact hne (Nat.xor_eq_zero.mp h).symm
    have hdlt : p.getD j 0 ^^^ v < 256 := Nat.xor_lt_two_pow (n := 8) hpj hv
    have hv' : v = p.getD j 0 ^^^ (p.getD j 0 ^^^ v) := (Nat.xor_cancel_left _ _).symm
    have hlen' : (p.set j v).length = p.length := List.length_set _ _ _
    have hbytes' : ∀ b ∈ p.set j v, b < 256 := by
      intro b hb
      rcases List.mem_or_eq_of_mem_set hb with hb | hb
      · exact hbytes b hb
      · rw [hb]; exact hv
    have h1 : readByte sdk w 1 = p.length :=
      lengthRead_of_stream sdk w _ _ _ hstream (by omega)
    have h2 := payloadRead_of_stream sdk w _ _ _ _ hstream hbytes'
    have h3 := checksumRead_of_stream sdk w _ _ _ _ [] hstream (calculate_checksum_lt _)
    rw [hlen'] at h2 h3
    rw [h1, h2, h3, calculate_checksum_eq, calculate_checksum_eq] at hck
    simp only at hck
    rw [← hlen', List.take_length, hlen', List.take_length] at hck
    rw [hv', xorAll_set _ _ _ _ hj] at hck
    have hX : xorAll (HEADER_BYTE ^^^ p.length) p < 256 :=
      xorAll_lt _ _ (Nat.xor_lt_two_pow (n := 8) (by unfold HEADER_BYTE; norm_num)
        (by omega)) hbytes
    rw [Nat.mod_eq_of_lt (Nat.xor_lt_two_pow (n := 8) hX hdlt), Nat.mod_eq_of_lt hX] at hck
    exact xor_ne_self _ _ hd0 hck
  · have hjn : j = p.length := by omega
    subst hjn
    rw [frameOf_set_checksum p v] at hstream
    have hget : (frameOf p).getD (p.length + 2) 0 =
        calculate_checksum
          { header := HEADER_BYTE, length := p.length, data := p, checksum := 0 } := by
      unfold frameOf
      simp only [List.cons_append, List.nil_append, List.getD_cons_succ]
      rw [List.getD_append_right _ _ _ _ (Nat.le_refl _)]
      simp
    rw [hget] at hne
    have h1 : readByte sdk w 1 = p.length :=
      lengthRead_of_stream sdk w _ _ _ hstream (by omega)
    have h2 := payloadRead_of_stream sdk w _ _ _ _ hstream hbytes
    have h3 := checksumRead_of_stream sdk w _ _ v p [] hstream hv
    rw [h1, h2, h3] at hck
    exact hne hck.symm

/-! ## Deadline on a valid frame, successive frames, echo -/

theorem protocol_receive_two_frames (sdk : Sdk) (buffer : List Nat) (bufferSize : Int)
    (w : World) (p q : List Nat)
    (hp2 : p.length ≤ 255) (hq2 : q.length ≤ 255)
    (hpb : ∀ b ∈ p, b < 256) (hqb : ∀ b ∈ q, b < 256)
    (hbp : (p.length : Int) ≤ bufferSize) (hbq : (q.length : Int) ≤ bufferSize)
    (hpos : 0 < bufferSize)
    (hstream : w.rx.map RxEvent.result = (frameOf p ++ frameOf q).map Int.ofNat)
    (hdl1 : ∀ k, k < p.length + 1 →
      deadline_exceeded (time_us_32 w) (time_us_32 (afterReads sdk (k + 2) w)) = false)
    (hdl2 : ∀ k, k < q.length + 1 →
      deadline_exceeded (time_us_32 (afterReads sdk (p.length + 3) w))
        (time_us_32 (afterReads sdk (k + 2) (afterReads sdk (p.length + 3) w))) = false) :
    protocol_receive sdk buffer bufferSize w =
        { ret := p.length, buffer := p ++ buffer.drop p.length,
          world := afterReads sdk (p.length + 3) w } ∧
      protocol_receive sdk (p ++ buffer.drop p.length) bufferSize
          (afterReads sdk (p.length + 3) w) =
        { ret := q.length, buffer := q ++ (p ++ buffer.drop p.length).drop q.length,
          world := afterReads sdk (q.length + 3) (afterReads sdk (p.length + 3) w) } := by
  have hs1 : w.rx.map RxEvent.result =
      (HEADER_BYTE :: p.length :: (p ++
        calculate_checksum
          { header := HEADER_BYTE, length := p.length, data := p, checksum := 0 } ::
        frameOf q)).map Int.ofNat := by
    rw [hstream]
    simp [frameOf]
  have hs2 : (afterReads sdk (p.length + 3) w).rx.map RxEvent.result =
      (frameOf q).map Int.ofNat := by
    rw [afterReads_rx, List.map_drop, hstream, List.map_append,
      List.drop_left' (by rw [List.length_map, frameOf_length])]
  constructor
  · exact protocol_receive_frame sdk buffer bufferSize w p (frameOf q) _ hp2 hpb hbp hpos rfl
      hs1 hdl1
  · exact protocol_receive_frame sdk _ bufferSize _ q [] _ hq2 hqb hbq hpos rfl hs2 hdl2

theorem take_set_self (l : List Nat) : ∀ (n a : Nat), (l.set n a).take n = l.take n := by
  induction l with
  | nil => intro n a; simp
  | cons x l ih =>
    intro n a
    cases n with
    | zero => simp
    | succ n => simp [ih]

theorem protocol_send_take (sdk : Sdk) (putres : Nat → Int) (data : List Nat) (n : Nat) :
    protocol_send sdk putres data (n : Int) = protocol_send sdk putres (data.take n) (n : Int) := by
  unfold protocol_send memcpy
  simp [List.take_take]

theorem send_loop_length (sdk : Sdk) (putres : Nat → Int) (buffer : List Nat) :
    ∀ (r i : Nat) (sent : List Nat),
      sent.length + min r 1 ≤ (send_loop sdk putres buffer r i sent).2.length := by
  intro r
  induction r with
  | zero => intro i sent; simp [send_loop]
  | succ r ih =>
    intro i sent
    simp only [send_loop]
    split
    · simp
    · have := ih (i + 1) (sent ++ [buffer.getD i 0])
      simp only [List.length_append, List.length_singleton] at this
      omega

theorem protocol_send_sent_ne_nil (sdk : Sdk) (putres : Nat → Int) (data : List Nat)
    (dataSize : Int) (h1 : 1 ≤ dataSize) (h2 : dataSize ≤ 255) :
    (protocol_send sdk putres data dataSize).sent ≠ [] := by
  have hc : ¬ (dataSize > ((255 : Nat) : Int) ∨ dataSize < 1) := by
    intro h
    rcases h with h | h
    · have : (255 : Int) < dataSize := by simpa using h
      omega
    · omega
  unfold protocol_send MAX_PACKET_SIZE
  rw [if_neg hc]
  dsimp only
  generalize hb : ([HEADER_BYTE, toU8 dataSize] ++ _ ++ [calculate_checksum _]) = buffer
  have hl := send_loop_length sdk putres buffer (toU8 dataSize + 3) 0 []
  rcases hs : send_loop sdk putres buffer (toU8 dataSize + 3) 0 [] with ⟨ok, sent⟩
  rw [hs] at hl
  have hsent : sent ≠ [] := by
    intro h
    rw [h] at hl
    simp at hl
  cases ok <;> exact hsent

theorem main_iteration_pos (sdk : Sdk) (putres : Nat → Int) (buffer : List Nat) (w : World)
    (hpos : (protocol_receive sdk buffer 256 w).ret > 0) :
    main_iteration sdk putres buffer w =
        { bytes_received := (readByte sdk w 1 : Int),
          buffer := (payloadRead sdk w (readByte sdk w 1) ++
            buffer.drop (readByte sdk w 1)).set (readByte sdk w 1) 0,
          world := afterReads sdk (readByte sdk w 1 + 3) w,
          echoed := some (protocol_send sdk putres (payloadRead sdk w (readByte sdk w 1))
            (readByte sdk w 1 : Int)) } ∧
      1 ≤ readByte sdk w 1 ∧ readByte sdk w 1 ≤ 255 := by
  have hne : (protocol_receive sdk buffer 256 w).ret ≠ -1 := by omega
  have hr := protocol_receive_ret_of_accepts sdk buffer 256 w hne
  rw [memcpy_payloadRead] at hr
  have hb : readByte sdk w 1 < 256 := toU8_lt _
  rw [hr] at hpos
  have hpos' : ((readByte sdk w 1 : Nat) : Int) > 0 := hpos
  refine ⟨?_, by omega, by omega⟩
  unfold main_iteration
  rw [hr]
  dsimp only
  rw [if_pos hpos', Int.toNat_ofNat, protocol_send_take, take_set_self,
    List.take_left' (payloadRead_length sdk w _)]

/-! ## The claims -/

/-- C1. Round trip: for a payload `p` of 1 to 255 bytes and a buffer size of at
least `len p`, when every write succeeds, the receiver reads exactly the bytes
written by `protocol_send p (len p)` and no deadline test fires, then
`protocol_receive` returns `len p` and the first `len p` bytes of the
destination buffer are `p`. -/
theorem C1_round_trip (sdk : Sdk) (putres : Nat → Int) (p buffer : List Nat)
    (bufferSize : Int) (w : World)
    (hlen1 : 1 ≤ p.length) (hlen2 : p.length ≤ 255) (hbytes : ∀ b ∈ p, b < 256)
    (hbuf : (p.length : Int) ≤ bufferSize)
    (hwrite : ∀ k, k < p.length + 3 → writeOk sdk (putres k))
    (hstream : w.rx.map RxEvent.result =
      (protocol_send sdk putres p (p.length : Int)).sent.map Int.ofNat)
    (hdeadline : ∀ k, k < p.length + 1 →
      deadline_exceeded (time_us_32 w) (time_us_32 (afterReads sdk (k + 2) w)) = false) :
    (protocol_receive sdk buffer bufferSize w).ret = (p.length : Int) ∧
      (protocol_receive sdk buffer bufferSize w).buffer.take p.length = p := by
  rw [protocol_send_ok sdk putres p hlen1 hlen2 hwrite] at hstream
  have hr := protocol_receive_frame sdk buffer bufferSize w p [] _ hlen2 hbytes hbuf
    (by omega) rfl hstream hdeadline
  rw [hr]
  simp

/-- Witness of C1 for the payload `[1, 2, 3]`. -/
theorem C1_round_trip_witness :
    (protocol_receive sdkA [0, 0, 0, 0] 4
        (streamOf 7 1000 [0xAA, 3, 1, 2, 3, 0xA9])).ret = 3 ∧
      (protocol_receive sdkA [0, 0, 0, 0] 4
        (streamOf 7 1000 [0xAA, 3, 1, 2, 3, 0xA9])).buffer.take 3 = [1, 2, 3] :=
  C1_round_trip sdkA (fun _ => 0) [1, 2, 3] [0, 0, 0, 0] 4
    (streamOf 7 1000 [0xAA, 3, 1, 2, 3, 0xA9])
    (by decide) (by decide) (by decide) (by decide) (by decide) (by decide) (by decide)

/-- C2. Wire layout: for a payload of `n` bytes, `1 ≤ n ≤ 255`, when every
write succeeds the bytes passed to the transport are exactly
`[0xAA, n, payload..., checksum]`, `n + 3` bytes in all, where `checksum` is
`calculate_checksum` of the packet. -/
theorem C2_wire_layout (sdk : Sdk) (putres : Nat → Int) (p : List Nat)
    (hlen1 : 1 ≤ p.length) (hlen2 : p.length ≤ 255)
    (hwrite : ∀ k, k < p.length + 3 → writeOk sdk (putres k)) :
    (protocol_send sdk putres p (p.length : Int)).sent =
        [0xAA, p.length] ++ p ++
          [calculate_checksum
            { header := 0xAA, length := p.length, data := p, checksum := 0 }] ∧
      (protocol_send sdk putres p (p.length : Int)).sent.length = p.length + 3 ∧
      (p.length = 255 → (protocol_send sdk putres p (p.length : Int)).sent.length = 258) := by
  rw [protocol_send_ok sdk putres p hlen1 hlen2 hwrite]
  refine ⟨rfl, frameOf_length p, fun h => ?_⟩
  simp only [frameOf_length, h]

/-- Witness of C2 for the payload `[1, 2, 3]`. -/
theorem C2_wire_layout_witness :
    (protocol_send sdkA (fun _ => 0) [1, 2, 3] 3).sent =
        [0xAA, 3] ++ [1, 2, 3] ++
          [calculate_checksum
            { header := 0xAA, length := 3, data := [1, 2, 3], checksum := 0 }] ∧
      (protocol_send sdkA (fun _ => 0) [1, 2, 3] 3).sent.length = 3 + 3 ∧
      ((3 : Nat) = 255 → (protocol_send sdkA (fun _ => 0) [1, 2, 3] 3).sent.length = 258) :=
  C2_wire_layout sdkA (fun _ => 0) [1, 2, 3] (by decide) (by decide) (by decide)

/-- C3, as stated, fails: the checksum byte written for the payload "OK" is
`0xAC`, not `0xE6`, and the receiver rejects the sequence that ends in `0xE6`. -/
theorem C3_counterexample :
    (protocol_send sdkA (fun _ => 0) [0x4F, 0x4B] 2).sent ≠ [0xAA, 0x02, 0x4F, 0x4B, 0xE6] ∧
      (protocol_receive sdkA [0, 0] 2
        (streamOf 0 0 [0xAA, 0x02, 0x4F, 0x4B, 0xE6])).ret = -1 := by
  decide

/-- C3, amended. `protocol_send` of the payload "OK" (`0x4F, 0x4B`) writes
exactly `0xAA, 0x02, 0x4F, 0x4B, 0xAC`, and `protocol_receive` on exactly that
sequence (buffer size at least 2, no deadline test firing) returns 2 with the
buffer holding `0x4F, 0x4B`. -/
theorem C3_example_OK (sdk : Sdk) (putres : Nat → Int) (buffer : List Nat)
    (bufferSize : Int) (w : World)
    (hwrite : ∀ k, k < 5 → writeOk sdk (putres k))
    (hbuf : 2 ≤ bufferSize)
    (hstream : w.rx.map RxEvent.result = [0xAA, 0x02, 0x4F, 0x4B, 0xAC])
    (hdeadline : ∀ k, k < 3 →
      deadline_exceeded (time_us_32 w) (time_us_32 (afterReads sdk (k + 2) w)) = false) :
    (protocol_send sdk putres [0x4F, 0x4B] 2).sent = [0xAA, 0x02, 0x4F, 0x4B, 0xAC] ∧
      (protocol_receive sdk buffer bufferSize w).ret = 2 ∧
      (protocol_receive sdk buffer bufferSize w).buffer.take 2 = [0x4F, 0x4B] := by
  have hs := protocol_send_ok sdk putres [0x4F, 0x4B] (by decide) (by decide) hwrite
  have hf : frameOf [0x4F, 0x4B] = [0xAA, 0x02, 0x4F, 0x4B, 0xAC] := by decide
  rw [hf] at hs
  have hr := protocol_receive_frame sdk buffer bufferSize w [0x4F, 0x4B] [] 0xAC
    (by decide) (by decide) (by simpa using hbuf) (by omega) (by decide)
    (by rw [hstream]; rfl) hdeadline
  refine ⟨?_, ?_, ?_⟩
  · exact congrArg SendResult.sent hs
  · rw [hr]; rfl
  · rw [hr]; rfl

/-- Witness of the amended C3. -/
theorem C3_example_OK_witness :
    (protocol_send sdkA (fun _ => 0) [0x4F, 0x4B] 2).sent = [0xAA, 0x02, 0x4F, 0x4B, 0xAC] ∧
      (protocol_receive sdkA [9, 9, 9] 3
        (streamOf 5 100 [0xAA, 0x02, 0x4F, 0x4B, 0xAC])).ret = 2 ∧
      (protocol_receive sdkA [9, 9, 9] 3
        (streamOf 5 100 [0xAA, 0x02, 0x4F, 0x4B, 0xAC])).buffer.take 2 = [0x4F, 0x4B] :=
  C3_example_OK sdkA (fun _ => 0) [9, 9, 9] 3 (streamOf 5 100 [0xAA, 0x02, 0x4F, 0x4B, 0xAC])
    (by decide) (by decide) (by decide) (by decide)

/-- C4. Checksum definition: `calculate_checksum` returns the 8-bit XOR of the
header byte, the length byte and exactly the first `length` bytes of `data`
(for byte-valued fields the reduction to 8 bits changes nothing); the bytes of
`data` at index `length` and beyond and the stored checksum field do not
affect the result. -/
theorem C4_checksum_definition (p : Packet) :
    calculate_checksum p =
        (p.data.take p.length).foldl (fun a b => a ^^^ b) (p.header ^^^ p.length) % 256 ∧
      (p.header < 256 ∧ p.length < 256 ∧ (∀ b ∈ p.data, b < 256) →
        calculate_checksum p =
          (p.data.take p.length).foldl (fun a b => a ^^^ b) (p.header ^^^ p.length)) ∧
      (∀ q : Packet, q.header = p.header → q.length = p.length →
        q.data.take q.length = p.data.take p.length →
        calculate_checksum q = calculate_checksum p) := by
  refine ⟨calculate_checksum_eq p, ?_, ?_⟩
  · rintro ⟨hh, hl, hd⟩
    rw [calculate_checksum_eq]
    apply Nat.mod_eq_of_lt
    apply xorAll_lt _ _ (Nat.xor_lt_two_pow (n := 8) hh hl)
    intro b hb
    exact hd b (List.mem_of_mem_take hb)
  · intro q h1 h2 h3
    rw [calculate_checksum_eq, calculate_checksum_eq, h3, h1, h2]

/-- C6. Send length validation: for every `dataSize < 1` and every
`dataSize > 255`, `protocol_send` returns -1 and passes no byte to the
transport. -/
theorem C6_send_length_validation (sdk : Sdk) (putres : Nat → Int) (data : List Nat)
    (dataSize : Int) (h : dataSize < 1 ∨ 255 < dataSize) :
    (protocol_send sdk putres data dataSize).ret = -1 ∧
      (protocol_send sdk putres data dataSize).sent = [] := by
  rw [protocol_send_reject sdk putres data dataSize h]
  exact ⟨rfl, rfl⟩

/-- Witness of C6 at `dataSize = 256`. -/
theorem C6_send_length_validation_witness :
    (protocol_send sdkA (fun _ => 0) (List.replicate 256 7) 256).ret = -1 ∧
      (protocol_send sdkA (fun _ => 0) (List.replicate 256 7) 256).sent = [] :=
  C6_send_length_validation sdkA (fun _ => 0) (List.replicate 256 7) 256 (by decide)

/-- C7. Send result: for `1 ≤ dataSize ≤ 255`, `protocol_send` returns
`dataSize` if and only if every one of the `dataSize + 3` writes succeeds, and
if some write reports `PICO_ERROR_TIMEOUT` or `PICO_ERROR_GENERIC` it returns
-1, never a partial count. -/
theorem C7_send_result (sdk : Sdk) (putres : Nat → Int) (data : List Nat)
    (dataSize : Int) (h1 : 1 ≤ dataSize) (h2 : dataSize ≤ 255) :
    ((protocol_send sdk putres data dataSize).ret = dataSize ↔
        ∀ k, k < dataSize.toNat + 3 → writeOk sdk (putres k)) ∧
      ((∃ k, k < dataSize.toNat + 3 ∧
          (putres k = sdk.PICO_ERROR_TIMEOUT ∨ putres k = sdk.PICO_ERROR_GENERIC)) →
        (protocol_send sdk putres data dataSize).ret = -1) := by
  obtain ⟨hiff, hor⟩ := protocol_send_ret sdk putres data dataSize h1 h2
  refine ⟨hiff, ?_⟩
  rintro ⟨k, hk, hbad⟩
  rcases hor with hret | hret
  · have hok := hiff.mp hret k hk
    unfold writeOk at hok
    rcases hbad with hbad | hbad
    · exact absurd hbad hok.1
    · exact absurd hbad hok.2
  · exact hret

/-- Witness of C7: a 2-byte payload whose fourth write reports a timeout. -/
theorem C7_send_result_witness :
    ((protocol_send sdkA (fun k => if k = 3 then -1 else 0) [5, 6] 2).ret = 2 ↔
        ∀ k, k < (2 : Int).toNat + 3 →
          writeOk sdkA ((fun k => if k = 3 then (-1 : Int) else 0) k)) ∧
      ((∃ k, k < (2 : Int).toNat + 3 ∧
          ((fun k => if k = 3 then (-1 : Int) else 0) k = sdkA.PICO_ERROR_TIMEOUT ∨
            (fun k => if k = 3 then (-1 : Int) else 0) k = sdkA.PICO_ERROR_GENERIC)) →
        (protocol_send sdkA (fun k => if k = 3 then -1 else 0) [5, 6] 2).ret = -1) :=
  C7_send_result sdkA (fun k => if k = 3 then -1 else 0) [5, 6] 2 (by decide) (by decide)

/-- C5, as stated, fails: in the valid frame of the payload `00 AB 07` the
length byte is 3; with bit 1 of the length byte inverted the length reads 1,
the byte `AB` is taken for the checksum of `AA 01 00`, and `protocol_receive`
returns 1 with the payload `00`. -/
theorem C5_counterexample :
    (protocol_receive sdkA (List.replicate 255 0) 255
        (streamOf 0 0
          ((flipBit (protocol_send sdkA (fun _ => 0) [0x00, 0xAB, 0x07] 3).sent 1 1).map
            Int.ofNat))).ret = 1 ∧
      (protocol_receive sdkA (List.replicate 255 0) 255
        (streamOf 0 0
          ((flipBit (protocol_send sdkA (fun _ => 0) [0x00, 0xAB, 0x07] 3).sent 1 1).map
            Int.ofNat))).buffer.take 1 = [0x00] := by
  decide

/-- C5, amended. For every valid frame (as written by `protocol_send` for a
payload of 1 to 255 bytes) and every single bit position in its header byte or
in any of its payload bytes, `protocol_receive` on the frame with that one bit
inverted returns -1, for every buffer size and every timing. -/
theorem C5_bit_flip_detected (sdk : Sdk) (putres : Nat → Int) (p buffer : List Nat)
    (bufferSize : Int) (w : World) (pos bit : Nat)
    (hlen1 : 1 ≤ p.length) (hlen2 : p.length ≤ 255) (hbytes : ∀ b ∈ p, b < 256)
    (hwrite : ∀ k, k < p.length + 3 → writeOk sdk (putres k))
    (hbit : bit < 8) (hpos : pos = 0 ∨ (2 ≤ pos ∧ pos < p.length + 2))
    (hstream : w.rx.map RxEvent.result =
      (flipBit (protocol_send sdk putres p (p.length : Int)).sent pos bit).map Int.ofNat) :
    (protocol_receive sdk buffer bufferSize w).ret = -1 := by
  rw [protocol_send_ok sdk putres p hlen1 hlen2 hwrite] at hstream
  exact protocol_receive_flipped sdk buffer bufferSize w p pos bit hlen2 hbytes hbit hpos hstream

/-- Witness of the amended C5: the top bit of the second payload byte of the
frame of `[1, 2, 3]` is inverted. -/
theorem C5_bit_flip_detected_witness :
    (protocol_receive sdkA (List.replicate 255 0) 255
      (streamOf 0 0
        ((flipBit (protocol_send sdkA (fun _ => 0) [1, 2, 3] 3).sent 3 7).map
          Int.ofNat))).ret = -1 :=
  C5_bit_flip_detected sdkA (fun _ => 0) [1, 2, 3] (List.replicate 255 0) 255
    (streamOf 0 0
      ((flipBit (protocol_send sdkA (fun _ => 0) [1, 2, 3] 3).sent 3 7).map Int.ofNat))
    3 7 (by decide) (by decide) (by decide) (by decide) (by decide) (by decide) (by decide)

/-- C8 fails on the code: a read that times out is stored as a byte (`0xFF` or
`0xFE`, the low byte of `PICO_ERROR_TIMEOUT`) and the receive goes on. With
length 1, a timed-out payload read followed by the byte `0x54` (`0x55`), and
likewise the payload byte `0x54` (`0x55`) followed by a timed-out checksum
read, make `protocol_receive` return 1 and deliver a payload. -/
theorem C8_timeout_taken_for_data :
    (protocol_receive sdkA [0] 1 (payloadTimeoutStream sdkA 0x54)).ret = 1 ∧
      (protocol_receive sdkA [0] 1 (payloadTimeoutStream sdkA 0x54)).buffer = [0xFF] ∧
      (protocol_receive sdkA [0] 1 (checksumTimeoutStream sdkA 0x54)).ret = 1 ∧
      (protocol_receive sdkA [0] 1 (checksumTimeoutStream sdkA 0x54)).buffer = [0x54] ∧
      (protocol_receive sdkB [0] 1 (payloadTimeoutStream sdkB 0x55)).ret = 1 ∧
      (protocol_receive sdkB [0] 1 (payloadTimeoutStream sdkB 0x55)).buffer = [0xFE] ∧
      (protocol_receive sdkB [0] 1 (checksumTimeoutStream sdkB 0x55)).ret = 1 ∧
      (protocol_receive sdkB [0] 1 (checksumTimeoutStream sdkB 0x55)).buffer = [0x55] := by
  decide

/-- C9 fails on the code: on `slowStream` no read times out; when the deadline
is tested before the checksum read the counter shows 10,300,200 microseconds
since the call (10,300,100 since the header byte, 10,300,000 since the length
byte), the test does not fire, the checksum byte is read (6 reads in all) and
`protocol_receive` returns 3. The test fires from 11,000,000 microseconds
on. -/
theorem C9_deadline_is_eleven_seconds :
    (∀ e ∈ slowStream.rx, e.result ≠ sdkA.PICO_ERROR_TIMEOUT ∧ e.delay < 5000000) ∧
      time_us_32 (afterReads sdkA 5 slowStream) - time_us_32 slowStream = 10300200 ∧
      time_us_32 (afterReads sdkA 5 slowStream) - time_us_32 (afterReads sdkA 1 slowStream) =
        10300100 ∧
      time_us_32 (afterReads sdkA 5 slowStream) - time_us_32 (afterReads sdkA 2 slowStream) =
        10300000 ∧
      deadline_exceeded (time_us_32 slowStream) (time_us_32 (afterReads sdkA 5 slowStream)) =
        false ∧
      (protocol_receive sdkA [0, 0, 0] 3 slowStream).ret = 3 ∧
      (protocol_receive sdkA [0, 0, 0] 3 slowStream).world.reads = 6 ∧
      deadline_exceeded 0 10999999 = false ∧ deadline_exceeded 0 11000000 = true := by
  decide

/-- C10. Destination capacity: for every buffer size of at least 1 and every
stream that begins `0xAA, n` with `n` greater than the buffer size,
`protocol_receive` returns -1 after exactly two reads; the rest of the stream
is not consumed. -/
theorem C10_destination_capacity (sdk : Sdk) (buffer : List Nat) (bufferSize : Int)
    (now reads : Nat) (e0 e1 : RxEvent) (rest : List RxEvent) (n : Nat)
    (hbs : 1 ≤ bufferSize) (h0 : e0.result = 0xAA) (h1 : e1.result = (n : Int))
    (hn : n ≤ 255) (hgt : bufferSize < (n : Int)) :
    (protocol_receive sdk buffer bufferSize
        { now := now, rx := e0 :: e1 :: rest, reads := reads }).ret = -1 ∧
      (protocol_receive sdk buffer bufferSize
        { now := now, rx := e0 :: e1 :: rest, reads := reads }).world.reads = reads + 2 ∧
      (protocol_receive sdk buffer bufferSize
        { now := now, rx := e0 :: e1 :: rest, reads := reads }).world.rx = rest ∧
      (protocol_receive sdk buffer bufferSize
        { now := now, rx := e0 :: e1 :: rest, reads := reads }).buffer = buffer := by
  have hc1 : ¬ bufferSize ≤ 0 := by omega
  have ha : toU8 e0.result = HEADER_BYTE := by rw [h0]; rfl
  have hb : toU8 e1.result = n := by rw [h1]; exact toU8_ofNat n (by omega)
  have hc3 : ((n : Nat) : Int) > ((255 : Nat) : Int) ∨ ((n : Nat) : Int) > bufferSize :=
    Or.inr hgt
  unfold protocol_receive MAX_PACKET_SIZE
  rw [if_neg hc1]
  simp only [getchar_timeout_us, ha, hb, ne_eq, not_true_eq_false, if_false, if_pos hc3,
    and_self]

/-- Witness of C10: a frame that declares 10 payload bytes, received into a
buffer of 5 bytes. -/
theorem C10_destination_capacity_witness :
    (protocol_receive sdkA [0, 0, 0, 0, 0] 5
        { now := 0,
          rx := { delay := 3, result := 0xAA } :: { delay := 3, result := 10 } ::
            (List.replicate 11 { delay := 3, result := 7 }),
          reads := 0 }).ret = -1 ∧
      (protocol_receive sdkA [0, 0, 0, 0, 0] 5
        { now := 0,
          rx := { delay := 3, result := 0xAA } :: { delay := 3, result := 10 } ::
            (List.replicate 11 { delay := 3, result := 7 }),
          reads := 0 }).world.reads = 0 + 2 ∧
      (protocol_receive sdkA [0, 0, 0, 0, 0] 5
        { now := 0,
          rx := { delay := 3, result := 0xAA } :: { delay := 3, result := 10 } ::
            (List.replicate 11 { delay := 3, result := 7 }),
          reads := 0 }).world.rx = List.replicate 11 { delay := 3, result := 7 } ∧
      (protocol_receive sdkA [0, 0, 0, 0, 0] 5
        { now := 0,
          rx := { delay := 3, result := 0xAA } :: { delay := 3, result := 10 } ::
            (List.replicate 11 { delay := 3, result := 7 }),
          reads := 0 }).buffer = [0, 0, 0, 0, 0] :=
  C10_destination_capacity sdkA [0, 0, 0, 0, 0] 5 0 0 { delay := 3, result := 0xAA }
    { delay := 3, result := 10 } (List.replicate 11 { delay := 3, result := 7 }) 10
    (by decide) (by decide) (by decide) (by decide) (by decide)

/-- C11. Timeout isolation: for every buffer size of at least 1, when the
first read times out (`getchar_timeout_us` returns `PICO_ERROR_TIMEOUT`, whose
low byte is not `0xAA`), `protocol_receive` returns -1 after exactly one read:
no length, payload or checksum read is made and the buffer is untouched. The
same holds for every first byte other than `0xAA`. -/
theorem C11_timeout_isolation (sdk : Sdk) (buffer : List Nat) (bufferSize : Int) (w : World)
    (hbs : 1 ≤ bufferSize) (hsdk : toU8 sdk.PICO_ERROR_TIMEOUT ≠ HEADER_BYTE)
    (hfirst : readResult sdk w 0 = sdk.PICO_ERROR_TIMEOUT ∨
      ∃ b : Nat, b < 256 ∧ b ≠ 0xAA ∧ readResult sdk w 0 = (b : Int)) :
    (protocol_receive sdk buffer bufferSize w).ret = -1 ∧
      (protocol_receive sdk buffer bufferSize w).world.reads = w.reads + 1 ∧
      (protocol_receive sdk buffer bufferSize w).world.rx = w.rx.drop 1 ∧
      (protocol_receive sdk buffer bufferSize w).buffer = buffer := by
  have hh : readByte sdk w 0 ≠ HEADER_BYTE := by
    unfold readByte
    rcases hfirst with h | ⟨b, hb, hne, h⟩
    · rw [h]
      exact hsdk
    · rw [h, toU8_ofNat b hb]
      exact hne
  rw [protocol_receive_bad_header sdk buffer bufferSize w (by omega) hh]
  exact ⟨rfl, afterReads_reads sdk 1 w, afterReads_rx sdk 1 w, rfl⟩

/-- Witness of C11: the first read times out, a whole frame is sent too late. -/
theorem C11_timeout_isolation_witness :
    (protocol_receive sdkA [7, 7] 2
        { now := 0,
          rx := [{ delay := 5000000, result := -1 }, { delay := 1, result := 0xAA },
            { delay := 1, result := 1 }, { delay := 1, result := 5 },
            { delay := 1, result := 0xAE }],
          reads := 0 }).ret = -1 ∧
      (protocol_receive sdkA [7, 7] 2
        { now := 0,
          rx := [{ delay := 5000000, result := -1 }, { delay := 1, result := 0xAA },
            { delay := 1, result := 1 }, { delay := 1, result := 5 },
            { delay := 1, result := 0xAE }],
          reads := 0 }).world.reads = 0 + 1 ∧
      (protocol_receive sdkA [7, 7] 2
        { now := 0,
          rx := [{ delay := 5000000, result := -1 }, { delay := 1, result := 0xAA },
            { delay := 1, result := 1 }, { delay := 1, result := 5 },
            { delay := 1, result := 0xAE }],
          reads := 0 }).world.rx =
        List.drop 1 [{ delay := 5000000, result := -1 }, { delay := 1, result := 0xAA },
            { delay := 1, result := 1 }, { delay := 1, result := 5 },
            { delay := 1, result := 0xAE }] ∧
      (protocol_receive sdkA [7, 7] 2
        { now := 0,
          rx := [{ delay := 5000000, result := -1 }, { delay := 1, result := 0xAA },
            { delay := 1, result := 1 }, { delay := 1, result := 5 },
            { delay := 1, result := 0xAE }],
          reads := 0 }).buffer = [7, 7] :=
  C11_timeout_isolation sdkA [7, 7] 2
    { now := 0,
      rx := [{ delay := 5000000, result := -1 }, { delay := 1, result := 0xAA },
        { delay := 1, result := 1 }, { delay := 1, result := 5 },
        { delay := 1, result := 0xAE }],
      reads := 0 }
    (by decide) (by decide) (Or.inl (by decide))

/-- C12. No partial result: for every stream, timing and buffer size, when
`protocol_receive` returns -1 the destination buffer is unchanged; otherwise
the buffer is the received payload followed by the old buffer from index
`length` on, so only its first `length` bytes are written. -/
theorem C12_no_partial_result (sdk : Sdk) (buffer : List Nat) (bufferSize : Int) (w : World) :
    ((protocol_receive sdk buffer bufferSize w).ret = -1 →
        (protocol_receive sdk buffer bufferSize w).buffer = buffer) ∧
      ((protocol_receive sdk buffer bufferSize w).ret ≠ -1 →
        (protocol_receive sdk buffer bufferSize w).ret = (readByte sdk w 1 : Int) ∧
        (protocol_receive sdk buffer bufferSize w).buffer =
          payloadRead sdk w (readByte sdk w 1) ++ buffer.drop (readByte sdk w 1) ∧
        (protocol_receive sdk buffer bufferSize w).buffer.drop (readByte sdk w 1) =
          buffer.drop (readByte sdk w 1)) := by
  constructor
  · intro h
    rcases protocol_receive_fail_or sdk buffer bufferSize w with hf | hs
    · exact hf.2
    · exact absurd h hs
  · intro h
    rw [protocol_receive_ret_of_accepts sdk buffer bufferSize w h, memcpy_payloadRead]
    refine ⟨rfl, rfl, ?_⟩
    exact List.drop_left' (payloadRead_length sdk w _)

/-- C14. Length bound on success: when `protocol_receive` returns a value
`n ≥ 0`, then `n ≤ 255`, `n ≤ bufferSize`, `n` is the length byte read from the
stream (the second read), and the first `n` bytes of the buffer are exactly the
`n` bytes read after the length byte. -/
theorem C14_length_bound (sdk : Sdk) (buffer : List Nat) (bufferSize : Int) (w : World)
    (h : 0 ≤ (protocol_receive sdk buffer bufferSize w).ret) :
    (protocol_receive sdk buffer bufferSize w).ret ≤ 255 ∧
      (protocol_receive sdk buffer bufferSize w).ret ≤ bufferSize ∧
      (protocol_receive sdk buffer bufferSize w).ret = (readByte sdk w 1 : Int) ∧
      (protocol_receive sdk buffer bufferSize w).buffer.take (readByte sdk w 1) =
        (List.range (readByte sdk w 1)).map (fun k => readByte sdk w (k + 2)) := by
  have hne : (protocol_receive sdk buffer bufferSize w).ret ≠ -1 := by omega
  obtain ⟨_, _, hle, _, _⟩ := protocol_receive_inv sdk buffer bufferSize w hne
  have hb : readByte sdk w 1 < 256 := toU8_lt _
  rw [protocol_receive_ret_of_accepts sdk buffer bufferSize w hne, memcpy_payloadRead]
  refine ⟨?_, hle, rfl, ?_⟩
  · show ((readByte sdk w 1 : Nat) : Int) ≤ 255
    omega
  · exact List.take_left' (payloadRead_length sdk w _)

/-- Witness of C14: the frame of the payload `[1, 2, 3]` received into a
4-byte buffer. -/
theorem C14_length_bound_witness :
    (protocol_receive sdkA [0, 0, 0, 0] 4
        (streamOf 7 1000 [0xAA, 3, 1, 2, 3, 0xA9])).ret ≤ 255 ∧
      (protocol_receive sdkA [0, 0, 0, 0] 4
        (streamOf 7 1000 [0xAA, 3, 1, 2, 3, 0xA9])).ret ≤ 4 ∧
      (protocol_receive sdkA [0, 0, 0, 0] 4
        (streamOf 7 1000 [0xAA, 3, 1, 2, 3, 0xA9])).ret =
          (readByte sdkA (streamOf 7 1000 [0xAA, 3, 1, 2, 3, 0xA9]) 1 : Int) ∧
      (protocol_receive sdkA [0, 0, 0, 0] 4
        (streamOf 7 1000 [0xAA, 3, 1, 2, 3, 0xA9])).buffer.take
          (readByte sdkA (streamOf 7 1000 [0xAA, 3, 1, 2, 3, 0xA9]) 1) =
        (List.range (readByte sdkA (streamOf 7 1000 [0xAA, 3, 1, 2, 3, 0xA9]) 1)).map
          (fun k => readByte sdkA (streamOf 7 1000 [0xAA, 3, 1, 2, 3, 0xA9]) (k + 2)) :=
  C14_length_bound sdkA [0, 0, 0, 0] 4 (streamOf 7 1000 [0xAA, 3, 1, 2, 3, 0xA9]) (by decide)

/-- C20. Clock wrap-around: the elapsed time is `(time_us_32() - start_time)`
modulo `2 ^ 32`, so for every start time and every true elapsed duration
`d < 2 ^ 32` microseconds the deadline test sees exactly `d`, also when the
32-bit counter wraps past zero in between; its outcome depends on `d` only. -/
theorem C20_clock_wrap_around (w w' : World) (d : Nat) (hd : d < 2 ^ 32)
    (helapsed : w'.now = w.now + d) :
    (time_us_32 w' + 2 ^ 32 - time_us_32 w) % 2 ^ 32 = d ∧
      deadline_exceeded (time_us_32 w) (time_us_32 w') = decide (d / 1000000 > 10) := by
  unfold time_us_32
  rw [helapsed, deadline_exceeded_elapsed, elapsed_wrap, Nat.mod_eq_of_lt hd]
  exact ⟨rfl, rfl⟩

/-- Witness of C20: the counter wraps between the start, 5 microseconds before
`2 ^ 32`, and the test 12 seconds later. -/
theorem C20_clock_wrap_around_witness :
    (time_us_32 { now := 4294967291 + 12000000, rx := [], reads := 0 } + 2 ^ 32 -
        time_us_32 { now := 4294967291, rx := [], reads := 0 }) % 2 ^ 32 = 12000000 ∧
      deadline_exceeded (time_us_32 { now := 4294967291, rx := [], reads := 0 })
          (time_us_32 { now := 4294967291 + 12000000, rx := [], reads := 0 }) =
        decide (12000000 / 1000000 > 10) :=
  C20_clock_wrap_around { now := 4294967291, rx := [], reads := 0 }
    { now := 4294967291 + 12000000, rx := [], reads := 0 } 12000000 (by decide) rfl

/-- C13, as stated, fails: on the stream `AA 00 AA` the declared length 0
passes the length test, `AA` matches the checksum of the empty frame and
`protocol_receive` returns 0, not -1. -/
theorem C13_counterexample :
    (protocol_receive sdkA [9] 1 (streamOf 0 10 [0xAA, 0x00, 0xAA])).ret = 0 ∧
      (protocol_receive sdkA [9] 1 (streamOf 0 10 [0xAA, 0x00, 0xAA])).ret ≠ -1 := by
  decide

/-- C13, amended. For every buffer size of at least 1 and every stream that
begins `0xAA, 0x00`, `protocol_receive` delivers no payload byte: it leaves the
buffer unchanged and returns 0 or -1, and it returns 0 exactly when the
deadline test before the checksum read does not fire and the third byte read
is `0xAA`, the checksum of the empty frame. -/
theorem C13_zero_length (sdk : Sdk) (buffer : List Nat) (bufferSize : Int) (w : World)
    (hbs : 1 ≤ bufferSize) (h0 : readResult sdk w 0 = 0xAA) (h1 : readResult sdk w 1 = 0x00) :
    ((protocol_receive sdk buffer bufferSize w).ret = 0 ∨
        (protocol_receive sdk buffer bufferSize w).ret = -1) ∧
      (protocol_receive sdk buffer bufferSize w).buffer = buffer ∧
      ((protocol_receive sdk buffer bufferSize w).ret = 0 ↔
        (deadline_exceeded (time_us_32 w) (time_us_32 (afterReads sdk 2 w)) = false ∧
          readByte sdk w 2 = 0xAA)) := by
  have hb0 : readByte sdk w 0 = HEADER_BYTE := by
    unfold readByte
    rw [h0]
    rfl
  have hb1 : readByte sdk w 1 = 0 := by
    unfold readByte
    rw [h1]
    rfl
  have hck0 : calculate_checksum
      { header := HEADER_BYTE, length := 0, data := payloadRead sdk w 0, checksum := 0 } =
      0xAA := by
    simp [calculate_checksum, checksum_loop, HEADER_BYTE]
  by_cases hret : (protocol_receive sdk buffer bufferSize w).ret = -1
  · refine ⟨Or.inr hret, ?_, ?_⟩
    · rcases protocol_receive_fail_or sdk buffer bufferSize w with hf | hs
      · exact hf.2
      · exact absurd hret hs
    · constructor
      · intro h
        rw [hret] at h
        exact absurd h (by decide)
      · rintro ⟨hdl, hc⟩
        have hacc : Accepts sdk bufferSize w := by
          refine ⟨by omega, hb0, by rw [hb1]; omega, ?_, ?_⟩
          · intro k hk
            rw [hb1] at hk
            have hk0 : k = 0 := by omega
            subst hk0
            exact hdl
          · rw [hb1, hck0, hc]
        rw [protocol_receive_ok sdk buffer bufferSize w hacc] at hret
        rw [hb1] at hret
        simp at hret
  · have hacc := protocol_receive_inv sdk buffer bufferSize w hret
    obtain ⟨_, _, _, hdl, hck⟩ := hacc
    rw [protocol_receive_ret_of_accepts sdk buffer bufferSize w hret, hb1]
    refine ⟨Or.inl rfl, ?_, ?_⟩
    · simp [memcpy, payloadRead]
    · constructor
      · intro _
        refine ⟨hdl 0 (by omega), ?_⟩
        rw [hb1, hck0] at hck
        exact hck.symm
      · intro _
        rfl

/-- Witness of the amended C13: `AA 00` followed by a byte that is not `AA`. -/
theorem C13_zero_length_witness :
    ((protocol_receive sdkA [9] 1 (streamOf 0 10 [0xAA, 0x00, 0x55])).ret = 0 ∨
        (protocol_receive sdkA [9] 1 (streamOf 0 10 [0xAA, 0x00, 0x55])).ret = -1) ∧
      (protocol_receive sdkA [9] 1 (streamOf 0 10 [0xAA, 0x00, 0x55])).buffer = [9] ∧
      ((protocol_receive sdkA [9] 1 (streamOf 0 10 [0xAA, 0x00, 0x55])).ret = 0 ↔
        (deadline_exceeded (time_us_32 (streamOf 0 10 [0xAA, 0x00, 0x55]))
            (time_us_32 (afterReads sdkA 2 (streamOf 0 10 [0xAA, 0x00, 0x55]))) = false ∧
          readByte sdkA (streamOf 0 10 [0xAA, 0x00, 0x55]) 2 = 0xAA)) :=
  C13_zero_length sdkA [9] 1 (streamOf 0 10 [0xAA, 0x00, 0x55]) (by decide) (by decide)
    (by decide)

/-- C15. Send aborts at the first failed write: for a payload of 1 to 255
bytes, when the write of frame byte `i` (`i < dataSize + 3`) is the first to
report `PICO_ERROR_TIMEOUT` or `PICO_ERROR_GENERIC`, the bytes passed to the
transport are exactly the frame bytes `0..i`, in order (`i + 1` bytes, none
with a higher index), and `protocol_send` returns -1. -/
theorem C15_send_aborts_at_first_failure (sdk : Sdk) (putres : Nat → Int) (p : List Nat)
    (i : Nat) (hlen1 : 1 ≤ p.length) (hlen2 : p.length ≤ 255) (hi : i < p.length + 3)
    (hbefore : ∀ k, k < i → writeOk sdk (putres k))
    (hbad : putres i = sdk.PICO_ERROR_TIMEOUT ∨ putres i = sdk.PICO_ERROR_GENERIC) :
    (protocol_send sdk putres p (p.length : Int)).sent =
        ([0xAA, p.length] ++ p ++
          [calculate_checksum
            { header := 0xAA, length := p.length, data := p, checksum := 0 }]).take (i + 1) ∧
      (protocol_send sdk putres p (p.length : Int)).sent.length = i + 1 ∧
      (protocol_send sdk putres p (p.length : Int)).ret = -1 := by
  rw [protocol_send_fail sdk putres p i hlen1 hlen2 hi hbefore hbad]
  refine ⟨rfl, ?_, rfl⟩
  simp only [List.length_take, frameOf_length]
  omega

/-- Witness of C15: the write of byte 3 of the frame of `[5, 6]` fails. -/
theorem C15_send_aborts_at_first_failure_witness :
    (protocol_send sdkA (fun k => if k = 3 then -2 else 0) [5, 6] 2).sent =
        ([0xAA, 2] ++ [5, 6] ++
          [calculate_checksum
            { header := 0xAA, length := 2, data := [5, 6], checksum := 0 }]).take (3 + 1) ∧
      (protocol_send sdkA (fun k => if k = 3 then -2 else 0) [5, 6] 2).sent.length = 3 + 1 ∧
      (protocol_send sdkA (fun k => if k = 3 then -2 else 0) [5, 6] 2).ret = -1 :=
  C15_send_aborts_at_first_failure sdkA (fun k => if k = 3 then -2 else 0) [5, 6] 3
    (by decide) (by decide) (by decide) (by decide) (by decide)

/-- C18. Single-byte corruption is detected: for every valid frame of payload
length 1 to 255 and every replacement of exactly one payload byte, or of the
checksum byte, by a different byte (header and length bytes unchanged),
`protocol_receive` on the corrupted frame returns -1. -/
theorem C18_single_byte_corruption (sdk : Sdk) (putres : Nat → Int) (p buffer : List Nat)
    (bufferSize : Int) (w : World) (pos v : Nat)
    (hlen1 : 1 ≤ p.length) (hlen2 : p.length ≤ 255) (hbytes : ∀ b ∈ p, b < 256)
    (hwrite : ∀ k, k < p.length + 3 → writeOk sdk (putres k))
    (hpos : 2 ≤ pos ∧ pos < p.length + 3) (hv : v < 256)
    (hne : v ≠ (protocol_send sdk putres p (p.length : Int)).sent.getD pos 0)
    (hstream : w.rx.map RxEvent.result =
      ((protocol_send sdk putres p (p.length : Int)).sent.set pos v).map Int.ofNat) :
    (protocol_receive sdk buffer bufferSize w).ret = -1 := by
  rw [protocol_send_ok sdk putres p hlen1 hlen2 hwrite] at hstream hne
  exact protocol_receive_replaced sdk buffer bufferSize w p pos v hlen2 hbytes hv hpos hne
    hstream

/-- Witness of C18: the checksum byte `A9` of the frame of `[1, 2, 3]` is
replaced by `00`. -/
theorem C18_single_byte_corruption_witness :
    (protocol_receive sdkA (List.replicate 255 0) 255
      (streamOf 0 0
        (((protocol_send sdkA (fun _ => 0) [1, 2, 3] 3).sent.set 5 0).map Int.ofNat))).ret =
      -1 :=
  C18_single_byte_corruption sdkA (fun _ => 0) [1, 2, 3] (List.replicate 255 0) 255
    (streamOf 0 0
      (((protocol_send sdkA (fun _ => 0) [1, 2, 3] 3).sent.set 5 0).map Int.ofNat))
    5 0 (by decide) (by decide) (by decide) (by decide) (by decide) (by decide) (by decide)
    (by decide)

/-- C17. Frame-exact consumption: when `protocol_receive` returns `n ≥ 0` it
has made exactly `n + 3` reads; and for two payloads `p` and `q` of 1 to 255
bytes, two successive calls (buffer size 255, no deadline test firing) on the
bytes written by `protocol_send p` followed by those written by
`protocol_send q` return `p` and then `q`. -/
theorem C17_frame_exact_consumption (sdk : Sdk) (putresP putresQ : Nat → Int)
    (p q buffer : List Nat) (w : World)
    (hp1 : 1 ≤ p.length) (hp2 : p.length ≤ 255) (hq1 : 1 ≤ q.length) (hq2 : q.length ≤ 255)
    (hpb : ∀ b ∈ p, b < 256) (hqb : ∀ b ∈ q, b < 256)
    (hwp : ∀ k, k < p.length + 3 → writeOk sdk (putresP k))
    (hwq : ∀ k, k < q.length + 3 → writeOk sdk (putresQ k))
    (hstream : w.rx.map RxEvent.result =
      ((protocol_send sdk putresP p (p.length : Int)).sent ++
        (protocol_send sdk putresQ q (q.length : Int)).sent).map Int.ofNat)
    (hdl1 : ∀ k, k < p.length + 1 →
      deadline_exceeded (time_us_32 w) (time_us_32 (afterReads sdk (k + 2) w)) = false)
    (hdl2 : ∀ k, k < q.length + 1 →
      deadline_exceeded (time_us_32 (protocol_receive sdk buffer 255 w).world)
        (time_us_32 (afterReads sdk (k + 2) (protocol_receive sdk buffer 255 w).world)) =
          false) :
    (∀ (b : List Nat) (bs : Int) (v : World), 0 ≤ (protocol_receive sdk b bs v).ret →
        (protocol_receive sdk b bs v).world.reads =
          v.reads + (protocol_receive sdk b bs v).ret.toNat + 3) ∧
      (protocol_receive sdk buffer 255 w).ret = (p.length : Int) ∧
      (protocol_receive sdk buffer 255 w).buffer.take p.length = p ∧
      (protocol_receive sdk (protocol_receive sdk buffer 255 w).buffer 255
        (protocol_receive sdk buffer 255 w).world).ret = (q.length : Int) ∧
      (protocol_receive sdk (protocol_receive sdk buffer 255 w).buffer 255
        (protocol_receive sdk buffer 255 w).world).buffer.take q.length = q := by
  constructor
  · intro b bs v h
    have hne : (protocol_receive sdk b bs v).ret ≠ -1 := by omega
    rw [protocol_receive_ret_of_accepts sdk b bs v hne]
    simp only [Int.toNat_ofNat, afterReads_reads]
    omega
  · rw [protocol_send_ok sdk putresP p hp1 hp2 hwp,
      protocol_send_ok sdk putresQ q hq1 hq2 hwq] at hstream
    have hs1 : w.rx.map RxEvent.result =
        (HEADER_BYTE :: p.length :: (p ++
          calculate_checksum
            { header := HEADER_BYTE, length := p.length, data := p, checksum := 0 } ::
          frameOf q)).map Int.ofNat := by
      rw [hstream]
      simp [frameOf]
    have hr1 := protocol_receive_frame sdk buffer 255 w p (frameOf q) _ hp2 hpb
      (by omega) (by omega) rfl hs1 hdl1
    rw [hr1] at hdl2 ⊢
    obtain ⟨_, hr2⟩ := protocol_receive_two_frames sdk buffer 255 w p q hp2 hq2 hpb hqb
      (by omega) (by omega) (by omega) hstream hdl1 hdl2
    rw [hr2]
    simp

/-- Witness of C17: the frames of `[1, 2, 3]` and `[4]` back to back. -/
theorem C17_frame_exact_consumption_witness :
    (∀ (b : List Nat) (bs : Int) (v : World), 0 ≤ (protocol_receive sdkA b bs v).ret →
        (protocol_receive sdkA b bs v).world.reads =
          v.reads + (protocol_receive sdkA b bs v).ret.toNat + 3) ∧
      (protocol_receive sdkA [0, 0, 0] 255
        (streamOf 0 1000 [0xAA, 3, 1, 2, 3, 0xA9, 0xAA, 1, 4, 0xAF])).ret =
          ((([1, 2, 3] : List Nat).length : Nat) : Int) ∧
      (protocol_receive sdkA [0, 0, 0] 255
        (streamOf 0 1000 [0xAA, 3, 1, 2, 3, 0xA9, 0xAA, 1, 4, 0xAF])).buffer.take
          ([1, 2, 3] : List Nat).length = [1, 2, 3] ∧
      (protocol_receive sdkA
        (protocol_receive sdkA [0, 0, 0] 255
          (streamOf 0 1000 [0xAA, 3, 1, 2, 3, 0xA9, 0xAA, 1, 4, 0xAF])).buffer 255
        (protocol_receive sdkA [0, 0, 0] 255
          (streamOf 0 1000 [0xAA, 3, 1, 2, 3, 0xA9, 0xAA, 1, 4, 0xAF])).world).ret =
          ((([4] : List Nat).length : Nat) : Int) ∧
      (protocol_receive sdkA
        (protocol_receive sdkA [0, 0, 0] 255
          (streamOf 0 1000 [0xAA, 3, 1, 2, 3, 0xA9, 0xAA, 1, 4, 0xAF])).buffer 255
        (protocol_receive sdkA [0, 0, 0] 255
          (streamOf 0 1000 [0xAA, 3, 1, 2, 3, 0xA9, 0xAA, 1, 4, 0xAF])).world).buffer.take
          ([4] : List Nat).length = [4] :=
  C17_frame_exact_consumption sdkA (fun _ => 0) (fun _ => 0) [1, 2, 3] [4] [0, 0, 0]
    (streamOf 0 1000 [0xAA, 3, 1, 2, 3, 0xA9, 0xAA, 1, 4, 0xAF])
    (by decide) (by decide) (by decide) (by decide) (by decide) (by decide) (by decide)
    (by decide) (by decide) (by decide) (by decide)

/-- C19. Echo loop safety: in `main`, with a 256-byte buffer passed with size
256, every value `bytes_received > 0` satisfies `1 ≤ bytes_received ≤ 255`, so
the terminator index `bytes_received` is inside the buffer, the following
`protocol_send` is not rejected for its length (it passes bytes to the
transport and returns `bytes_received` or -1), and when the writes succeed it
sends back exactly the frame of the received payload. -/
theorem C19_echo_loop_safety (sdk : Sdk) (putres : Nat → Int) (buffer : List Nat) (w : World)
    (hlen : buffer.length = 256)
    (hpos : (main_iteration sdk putres buffer w).bytes_received > 0) :
    1 ≤ (main_iteration sdk putres buffer w).bytes_received ∧
      (main_iteration sdk putres buffer w).bytes_received ≤ 255 ∧
      (main_iteration sdk putres buffer w).bytes_received.toNat <
        (protocol_receive sdk buffer 256 w).buffer.length ∧
      ∃ s : SendResult, (main_iteration sdk putres buffer w).echoed = some s ∧
        s.sent ≠ [] ∧
        (s.ret = (main_iteration sdk putres buffer w).bytes_received ∨ s.ret = -1) ∧
        ((∀ k, k < (main_iteration sdk putres buffer w).bytes_received.toNat + 3 →
            writeOk sdk (putres k)) →
          s.ret = (main_iteration sdk putres buffer w).bytes_received ∧
          s.sent = frameOf ((protocol_receive sdk buffer 256 w).buffer.take
            (main_iteration sdk putres buffer w).bytes_received.toNat)) := by
  have hbr : (main_iteration sdk putres buffer w).bytes_received =
      (protocol_receive sdk buffer 256 w).ret := by
    unfold main_iteration
    dsimp only
    split <;> rfl
  rw [hbr] at hpos
  obtain ⟨hm, hn1, hn2⟩ := main_iteration_pos sdk putres buffer w hpos
  have hne : (protocol_receive sdk buffer 256 w).ret ≠ -1 := by omega
  have hr := protocol_receive_ret_of_accepts sdk buffer 256 w hne
  rw [memcpy_payloadRead] at hr
  rw [hm, hr]
  simp only [Int.toNat_ofNat]
  have hplen := payloadRead_length sdk w (readByte sdk w 1)
  refine ⟨by omega, by omega, ?_, _, rfl, ?_, ?_, ?_⟩
  · simp only [List.length_append, List.length_drop, hplen, hlen]
    omega
  · exact protocol_send_sent_ne_nil sdk putres _ _ (by omega) (by omega)
  · exact (protocol_send_ret sdk putres _ _ (by omega) (by omega)).2
  · intro hw
    have hs := protocol_send_ok sdk putres (payloadRead sdk w (readByte sdk w 1))
      (by rw [hplen]; exact hn1) (by rw [hplen]; exact hn2)
      (by rw [hplen]; exact hw)
    rw [hplen] at hs
    rw [hs, List.take_left' hplen]
    exact ⟨rfl, rfl⟩

/-- Witness of C19: one pass of the loop on the frame of `[1, 2, 3]`. -/
theorem C19_echo_loop_safety_witness :
    1 ≤ (main_iteration sdkA (fun _ => 0) echoBuffer echoStream).bytes_received ∧
      (main_iteration sdkA (fun _ => 0) echoBuffer echoStream).bytes_received ≤ 255 ∧
      (main_iteration sdkA (fun _ => 0) echoBuffer echoStream).bytes_received.toNat <
        (protocol_receive sdkA echoBuffer 256 echoStream).buffer.length ∧
      ∃ s : SendResult,
        (main_iteration sdkA (fun _ => 0) echoBuffer echoStream).echoed = some s ∧
        s.sent ≠ [] ∧
        (s.ret = (main_iteration sdkA (fun _ => 0) echoBuffer echoStream).bytes_received ∨
          s.ret = -1) ∧
        ((∀ k,
            k < (main_iteration sdkA (fun _ => 0) echoBuffer echoStream).bytes_received.toNat +
              3 → writeOk sdkA ((fun _ => (0 : Int)) k)) →
          s.ret = (main_iteration sdkA (fun _ => 0) echoBuffer echoStream).bytes_received ∧
          s.sent = frameOf ((protocol_receive sdkA echoBuffer 256 echoStream).buffer.take
            (main_iteration sdkA (fun _ => 0) echoBuffer echoStream).bytes_received.toNat)) :=
  C19_echo_loop_safety sdkA (fun _ => 0) echoBuffer echoStream (List.length_replicate 256 0)
    (by decide)

end Protocol
